import Mathlib

/-!
Verification of the match orchestration and scoring engine of the jaysgame
repository. The definitions below are a shallow embedding of the server
services (`question.service.ts`, `answer.service.ts`,
`state-machine.service.ts`, `reveal.service.ts`, and the socket handler in
`host.handler.ts`). JS numbers are modelled as `Rat` (times, numeric answer
values) or `Int` (run totals), strings as `String`, `undefined`/nullable
fields as `Option`, thrown exceptions as `Except`/error results, and the
durable answer table plus the Redis structures as explicit values threaded
through each operation.
-/

namespace Jaysgame

/-- Match phases (`MatchPhase` in `@jaysgame/shared`). -/
inductive MatchPhase where
  | lobby
  | question
  | reveal
  | stretch
  | postgame
deriving DecidableEq

/-- Durable match lifecycle status (`MatchStatus` in the Prisma schema). -/
inductive MatchStatus where
  | LOBBY
  | IN_PROGRESS
  | COMPLETED
  | ABANDONED
deriving DecidableEq

/-- Question type tags (`QuestionType` in `@jaysgame/shared`). -/
inductive QuestionType where
  | mc
  | tf
  | media
  | closest
deriving DecidableEq

/-- A question's type-tagged payload (`Question` in `@jaysgame/shared`), as
consumed by `question.service.ts`. `correctIndex` is an `Int` (a JS number
used as an index), `correctValue` a `Rat`; `mediaUrl`/`clipUrl` are optional
strings (`none` = `undefined`). -/
inductive Question where
  | mc (text : String) (choices : List String) (correctIndex : Int)
      (mediaUrl : Option String) (clipUrl : Option String)
  | media (text : String) (choices : List String) (correctIndex : Int)
      (mediaUrl : Option String) (clipUrl : Option String)
  | tf (text : String) (correctAnswer : Bool)
      (mediaUrl : Option String) (clipUrl : Option String)
  | closest (text : String) (correctValue : Rat)
      (mediaUrl : Option String) (clipUrl : Option String)
deriving DecidableEq

/-- Access to the common `text` field of a question. -/
def Question.text : Question → String
  | .mc t _ _ _ _ => t
  | .media t _ _ _ _ => t
  | .tf t _ _ _ => t
  | .closest t _ _ _ => t

/-- Access to the common optional `mediaUrl` field of a question. -/
def Question.mediaUrl : Question → Option String
  | .mc _ _ _ m _ => m
  | .media _ _ _ m _ => m
  | .tf _ _ m _ => m
  | .closest _ _ m _ => m

/-- Access to the common optional `clipUrl` field of a question. -/
def Question.clipUrl : Question → Option String
  | .mc _ _ _ _ c => c
  | .media _ _ _ _ c => c
  | .tf _ _ _ c => c
  | .closest _ _ _ c => c

/-- The `type` tag of a question. -/
def Question.qtype : Question → QuestionType
  | .mc _ _ _ _ _ => .mc
  | .media _ _ _ _ _ => .media
  | .tf _ _ _ _ => .tf
  | .closest _ _ _ _ => .closest

/-- JS truthiness test for an optional string: `!x` holds for `undefined`
and for the empty string. -/
def strFalsy : Option String → Bool
  | none => true
  | some s => s.data.isEmpty

/-- The JS test `!text || text.trim().length === 0`: the string is empty or
all of its characters are whitespace. -/
def jsBlank (s : String) : Bool :=
  s.data.all Char.isWhitespace

/-- `toLowerCase` on one character (ASCII letters; other characters are
unchanged, which is all the true/false comparison needs). -/
def charToLower (c : Char) : Char :=
  if 'A' ≤ c ∧ c ≤ 'Z' then Char.ofNat (c.toNat + 32) else c

/-- `toLowerCase` of a string. -/
def strToLower (s : String) : String :=
  ⟨s.data.map charToLower⟩

/-- JS array indexing `l[i]` with a (possibly negative or too large) integer
index: `undefined` (`none`) exactly when the index is out of bounds. -/
def jsIndex (l : List String) (i : Int) : Option String :=
  if i < 0 then none else l.get? i.toNat

/-- Result record of `validateQuestion` (`{ valid, error? }`). -/
structure ValidationResult where
  valid : Bool
  error : Option String
deriving DecidableEq

/-- `validateQuestion` from `question.service.ts`: checks that a question can
be shown (non-blank text, and the per-type structural requirements). -/
def validateQuestion (question : Question) : ValidationResult :=
  if jsBlank question.text then
    ⟨false, some "Question text is required"⟩
  else
    match question with
    | .mc _ choices correctIndex _ _ =>
      if choices.length < 2 then
        ⟨false, some "Multiple choice questions require at least 2 choices"⟩
      else if correctIndex < 0 ∨ (choices.length : Int) ≤ correctIndex then
        ⟨false, some "Invalid correct index for multiple choice question"⟩
      else ⟨true, none⟩
    | .media _ choices correctIndex mediaUrl _ =>
      if strFalsy mediaUrl then
        ⟨false, some "Media questions require a mediaUrl"⟩
      else if choices.length < 2 then
        ⟨false, some "Media questions require at least 2 choices"⟩
      else if correctIndex < 0 ∨ (choices.length : Int) ≤ correctIndex then
        ⟨false, some "Invalid correct index for media question"⟩
      else ⟨true, none⟩
    | .tf _ _ _ _ =>
      -- the runtime typeof check on `correctAnswer` always passes in the
      -- typed embedding (the field is a Bool)
      ⟨true, none⟩
    | .closest _ _ _ _ =>
      -- likewise the typeof check on `correctValue` always passes
      ⟨true, none⟩

/-- A correct-answer value (`string | number | boolean`). -/
inductive AnswerValue where
  | str (s : String)
  | num (v : Rat)
  | bool (b : Bool)
deriving DecidableEq

/-- `getCorrectAnswer` from `question.service.ts`. For `mc`/`media` it reads
`choices[correctIndex]`, which is `undefined` (`none`) out of bounds. -/
def getCorrectAnswer : Question → Option AnswerValue
  | .mc _ choices correctIndex _ _ => (jsIndex choices correctIndex).map .str
  | .media _ choices correctIndex _ _ => (jsIndex choices correctIndex).map .str
  | .tf _ correctAnswer _ _ => some (.bool correctAnswer)
  | .closest _ correctValue _ _ => some (.num correctValue)

/-- `isAnswerCorrect` from `question.service.ts`. For `mc`/`media` the JS
comparison `choices[correctIndex] === answer` is false when the access is
`undefined`; `tf` compares lowercased text against `correctAnswer.toString()`;
`closest` correctness is always provisionally false at submission time. -/
def isAnswerCorrect (question : Question) (answer : String) : Bool :=
  match question with
  | .mc _ choices correctIndex _ _ => jsIndex choices correctIndex == some answer
  | .media _ choices correctIndex _ _ => jsIndex choices correctIndex == some answer
  | .tf _ correctAnswer _ _ =>
    strToLower answer == (if correctAnswer then "true" else "false")
  | .closest _ _ _ _ => false

/-- Match settings (`MatchSettings` in `@jaysgame/shared`). -/
structure MatchSettings where
  timerSec : Rat
  grandSlam : Bool
  speedBonus : Bool
deriving DecidableEq

/-- Result of `calculateRuns` (`{ runs, bonusAwarded }`). -/
structure RunsResult where
  runs : Int
  bonusAwarded : Bool
deriving DecidableEq

/-- `calculateRuns` from `answer.service.ts`: 0 runs when incorrect; 4 runs
with bonus on a grand slam (setting enabled and first correct answer); else
4 runs with bonus when the speed bonus is enabled and `answerMs` is within
the first 25% of the timer; otherwise the base 1 run. -/
def calculateRuns (isCorrect : Bool) (answerMs : Rat) (settings : MatchSettings)
    (isGrandSlam : Bool) : RunsResult :=
  if !isCorrect then
    { runs := 0, bonusAwarded := false }
  else if settings.grandSlam && isGrandSlam then
    { runs := 4, bonusAwarded := true }
  else if settings.speedBonus && decide (answerMs ≤ settings.timerSec * 1000 * (25 / 100)) then
    { runs := 4, bonusAwarded := true }
  else
    { runs := 1, bonusAwarded := false }

/-- A row of the durable `MatchAnswer` table. `id` stands for the
DB-generated primary key; `answerMs` is a JS number. -/
structure AnswerRow where
  id : Nat
  matchId : String
  playerId : String
  inningIdx : Nat
  questionIdx : Nat
  choice : String
  isCorrect : Bool
  answerMs : Rat
  bonusAwarded : Bool
deriving DecidableEq

/-- `isGrandSlam` from `answer.service.ts`: true when the ledger holds no
correct answer yet for this exact `(matchId, inningIdx, questionIdx)`. -/
def isGrandSlam (ledger : List AnswerRow) (matchId : String)
    (inningIdx questionIdx : Nat) : Bool :=
  (ledger.filter fun a =>
    a.matchId == matchId && a.inningIdx == inningIdx &&
    a.questionIdx == questionIdx && a.isCorrect).length == 0

/-- Whether the ledger already holds a row for the unique key
`(matchId, playerId, inningIdx, questionIdx)` — the column set of the unique
index `MatchAnswer_matchId_playerId_inningIdx_questionIdx_key`. -/
def hasAnswerKey (ledger : List AnswerRow) (matchId playerId : String)
    (inningIdx questionIdx : Nat) : Bool :=
  ledger.any fun a =>
    a.matchId == matchId && a.playerId == playerId &&
    a.inningIdx == inningIdx && a.questionIdx == questionIdx

/-- Service-level errors. The source throws plain `Error`s; the constructors
name the spec taxonomy each thrown message maps to. `runtimeError` stands for
JS runtime exceptions (e.g. reading a field of `undefined`) outside the
taxonomy. -/
inductive SvcError where
  | notFound
  | stateConflict
  | invalidContent
  | duplicateSubmission
  | runtimeError
deriving DecidableEq

/-- `prisma.matchAnswer.create` against the unique index: the insert commits
only when no row with the same `(matchId, playerId, inningIdx, questionIdx)`
exists, otherwise the database rejects it (Prisma error P2002), surfaced as a
duplicate-submission failure. The database serializes concurrent creates, so
the atomic check-and-insert is the faithful model of the race. -/
def matchAnswerCreate (ledger : List AnswerRow) (row : AnswerRow) :
    Except SvcError (List AnswerRow) :=
  if hasAnswerKey ledger row.matchId row.playerId row.inningIdx row.questionIdx then
    .error .duplicateSubmission
  else
    .ok (ledger ++ [row])

/-- The Redis answer-cache entry written by `submitAnswer` under key
`match:{matchId}:answers:{inningIdx}:{questionIdx}` (the key fields are kept
inline). It freezes the correctness and runs as computed at submission time. -/
structure CacheEntry where
  matchId : String
  inningIdx : Nat
  questionIdx : Nat
  playerId : String
  choice : String
  isCorrect : Bool
  runsAwarded : Int
  bonusAwarded : Bool
  answerMs : Rat
deriving DecidableEq

/-- `questionId.split('-')` for the single-character separator, accumulating
the current segment. -/
def splitOnDash : List Char → List Char → List String
  | acc, [] => [⟨acc.reverse⟩]
  | acc, c :: rest =>
    if c = '-' then (⟨acc.reverse⟩ : String) :: splitOnDash [] rest
    else splitOnDash (c :: acc) rest

/-- `parseInt(s, 10)` on the inputs this system feeds it: the leading digit
prefix as a number, `none` modelling `NaN` when there is none. -/
def parseIntPrefix (s : String) : Option Nat :=
  let ds := s.data.takeWhile Char.isDigit
  if ds.isEmpty then none
  else some (ds.foldl (fun acc c => acc * 10 + (c.toNat - ('0').toNat)) 0)

/-- Parsing of `(inningIdx, questionIdx)` out of a question id of the form
`matchId-inning-questionIdx`: `parts[parts.length-2]` and
`parts[parts.length-1]` through `parseInt`. `none` models the `NaN` outcome
for malformed ids (ids produced by `formatQuestion` always parse). -/
def parseQuestionId (questionId : String) : Option (Nat × Nat) :=
  match (splitOnDash [] questionId.data).reverse with
  | qPart :: inningPart :: _ =>
    match parseIntPrefix inningPart, parseIntPrefix qPart with
    | some inningIdx, some questionIdx => some (inningIdx, questionIdx)
    | _, _ => none
  | _ => none

/-- `SubmitAnswerRequest` from `answer.service.ts` (the socket payload plus
the authenticated `playerId`). -/
structure SubmitAnswerRequest where
  matchId : String
  playerId : String
  questionId : String
  choice : String
  clientLatencyMs : Rat
deriving DecidableEq

/-- `SubmitAnswerResult` from `answer.service.ts`. -/
structure SubmitAnswerResult where
  isCorrect : Bool
  correctAnswer : Option AnswerValue
  runsAwarded : Int
  bonusAwarded : Bool
  answerMs : Rat
deriving DecidableEq

/-- `submitAnswer` from `answer.service.ts`: parses the question indices from
the id, fixes correctness via the question model, queries the grand-slam
condition against the current ledger, scores via `calculateRuns` — note that
the `answerMs` fed to the scoring and persisted is the client-reported
`clientLatencyMs` — then persists the row (the unique index rejecting
duplicates) and appends the Redis cache entry. Returns the result together
with the updated ledger and cache. A malformed id (NaN indices) makes the
database write fail, modelled as `notFound`. -/
def submitAnswer (ledger : List AnswerRow) (cache : List CacheEntry)
    (request : SubmitAnswerRequest) (question : Question)
    (settings : MatchSettings) :
    Except SvcError (SubmitAnswerResult × List AnswerRow × List CacheEntry) :=
  match parseQuestionId request.questionId with
  | none => .error .notFound
  | some (inningIdx, questionIdx) =>
    let correct := isAnswerCorrect question request.choice
    let grandSlam := isGrandSlam ledger request.matchId inningIdx questionIdx
    let r := calculateRuns correct request.clientLatencyMs settings grandSlam
    match matchAnswerCreate ledger
        { id := ledger.length
          matchId := request.matchId
          playerId := request.playerId
          inningIdx := inningIdx
          questionIdx := questionIdx
          choice := request.choice
          isCorrect := correct
          answerMs := request.clientLatencyMs
          bonusAwarded := r.bonusAwarded } with
    | .error e => .error e
    | .ok ledger' =>
      let cache' := cache ++
        [{ matchId := request.matchId
           inningIdx := inningIdx
           questionIdx := questionIdx
           playerId := request.playerId
           choice := request.choice
           isCorrect := correct
           runsAwarded := r.runs
           bonusAwarded := r.bonusAwarded
           answerMs := request.clientLatencyMs }]
      .ok ({ isCorrect := correct
             correctAnswer := getCorrectAnswer question
             runsAwarded := r.runs
             bonusAwarded := r.bonusAwarded
             answerMs := request.clientLatencyMs }, ledger', cache')

/-- A serialization of several `submitAnswer` calls (the database commits
concurrent inserts in some serial order); failed calls leave the stores
untouched, as the thrown exception aborts before any later effect. -/
def processSubmissions (question : Question) (settings : MatchSettings) :
    List AnswerRow → List CacheEntry → List SubmitAnswerRequest →
    List (Except SvcError SubmitAnswerResult) × List AnswerRow × List CacheEntry
  | ledger, cache, [] => ([], ledger, cache)
  | ledger, cache, request :: rest =>
    match submitAnswer ledger cache request question settings with
    | .ok (res, ledger', cache') =>
      let (results, ledgerF, cacheF) := processSubmissions question settings ledger' cache' rest
      (.ok res :: results, ledgerF, cacheF)
    | .error e =>
      let (results, ledgerF, cacheF) := processSubmissions question settings ledger cache rest
      (.error e :: results, ledgerF, cacheF)

/-- The unique key of an answer row. -/
def answerKey (a : AnswerRow) : String × String × Nat × Nat :=
  (a.matchId, a.playerId, a.inningIdx, a.questionIdx)

/-- The ledger invariant enforced by the unique index: no two rows share a
`(matchId, playerId, inningIdx, questionIdx)` key. -/
def exactlyOncePerKey (ledger : List AnswerRow) : Prop :=
  (ledger.map answerKey).Nodup

/-- A ranked player score (`PlayerScore` in `@jaysgame/shared`). -/
structure PlayerScore where
  playerId : String
  nickname : String
  avatar : Option String
  runs : Int
  correct : Int
  total : Int
  totalTimeMs : Rat
deriving DecidableEq

/-- The client-safe question projection built by `formatQuestion`
(`QuestionPayload` in `@jaysgame/shared`). -/
structure QuestionPayload where
  id : String
  qtype : QuestionType
  text : String
  timerSec : Rat
  inning : Nat
  questionIdx : Nat
  choices : Option (List String)
  mediaUrl : Option String
deriving DecidableEq

/-- `formatQuestion` from `question.service.ts`: builds the broadcast payload
with id `matchId-inning-questionIdx`, per-type `choices` (`tf` is sent as the
two fixed choices, `closest` sends none), `mediaUrl` for `media` questions,
and additionally any truthy `mediaUrl` on non-media questions. -/
def formatQuestion (matchId : String) (question : Question)
    (inning questionIdx : Nat) (timerSec : Rat) : QuestionPayload :=
  let base : QuestionPayload :=
    { id := matchId ++ "-" ++ toString inning ++ "-" ++ toString questionIdx
      qtype := question.qtype
      text := question.text
      timerSec := timerSec
      inning := inning
      questionIdx := questionIdx
      choices := none
      mediaUrl := none }
  let withType : QuestionPayload :=
    match question with
    | .mc _ choices _ _ _ => { base with choices := some choices }
    | .media _ choices _ mediaUrl _ =>
      { base with choices := some choices, mediaUrl := mediaUrl }
    | .tf _ _ _ _ => { base with choices := some ["True", "False"] }
    | .closest _ _ _ _ => base
  if !strFalsy question.mediaUrl && question.qtype != .media then
    { withType with mediaUrl := question.mediaUrl }
  else
    withType

/-- The volatile per-match state blob stored in Redis under
`match:{matchId}:state` (`MatchState` in `@jaysgame/shared`), as read and
written by `state-machine.service.ts`. -/
structure MatchState where
  phase : MatchPhase
  inning : Nat
  questionIdx : Nat
  question : Option QuestionPayload
  endsAt : Option Rat
  lineScore : List Int
  leaderboard : List PlayerScore
deriving DecidableEq

/-- One inning of a pack (`{ theme, questions }`). -/
structure Inning where
  theme : String
  questions : List Question
deriving DecidableEq

/-- The durable `Match` row joined with its pack, as loaded by
`prisma.match.findUnique({ include: { pack: true } })`. -/
structure MatchRecord where
  id : String
  status : MatchStatus
  startedAt : Option Rat
  endedAt : Option Rat
  settings : MatchSettings
  pack : List Inning
deriving DecidableEq

/-- A durable `MatchPlayer` row (the fields the orchestration code reads). -/
structure MatchPlayerRow where
  id : String
  matchId : String
  nickname : String
  avatar : Option String
  leftAt : Option Rat
deriving DecidableEq

/-- The shared stores one `MatchStateMachine` instance operates on: the
orchestrator's `this.matchId`, the Redis state blob (`none` = expired or
never created), the durable match row (`none` = missing), the durable answer
ledger, the Redis answer cache, and the durable player roster. -/
structure ServerEnv where
  matchId : String
  stateBlob : Option MatchState
  matchDb : Option MatchRecord
  ledger : List AnswerRow
  cache : List CacheEntry
  players : List MatchPlayerRow
deriving DecidableEq

/-- `VALID_TRANSITIONS` from `state-machine.service.ts`. -/
def VALID_TRANSITIONS : MatchPhase → List MatchPhase
  | .lobby => [.question]
  | .question => [.reveal]
  | .reveal => [.question, .stretch, .postgame]
  | .stretch => [.question]
  | .postgame => []

/-- `MatchStateMachine.transition`: reloads the state, rejects a target phase
not listed in `VALID_TRANSITIONS` for the current phase (the store is then
left unwritten), otherwise saves the state with the new phase. -/
def transition (stored : Option MatchState) (newPhase : MatchPhase) :
    Except SvcError MatchState :=
  match stored with
  | none => .error .notFound
  | some state =>
    if (VALID_TRANSITIONS state.phase).contains newPhase then
      .ok { state with phase := newPhase }
    else
      .error .stateConflict

/-- `MatchStateMachine.startMatch`: only from `lobby`; marks the durable
match row `IN_PROGRESS` with `startedAt` set, and only afterwards validates
the first question — an invalid question aborts with the durable row already
updated while the Redis blob stays untouched. On success the blob moves to
the first question with a fresh deadline. -/
def startMatch (env : ServerEnv) (now : Rat) : Except SvcError Unit × ServerEnv :=
  match env.stateBlob with
  | none => (.error .notFound, env)
  | some state =>
    if state.phase != .lobby then
      (.error .stateConflict, env)
    else
      match env.matchDb with
      | none => (.error .notFound, env)
      | some m =>
        let m' := { m with status := .IN_PROGRESS, startedAt := some now }
        let env₁ := { env with matchDb := some m' }
        match (m.pack.get? 0).bind fun inn => inn.questions.get? 0 with
        | none => (.error .runtimeError, env₁)
        | some question =>
          if !(validateQuestion question).valid then
            (.error .invalidContent, env₁)
          else
            let state' :=
              { state with
                inning := 0
                questionIdx := 0
                phase := .question
                question := some (formatQuestion env.matchId question 0 0 m.settings.timerSec)
                endsAt := some (now + m.settings.timerSec * 1000) }
            (.ok (), { env₁ with stateBlob := some state' })

/-- `MatchStateMachine.endMatch`: saves the blob in `postgame` with the
question and deadline cleared, then marks the durable row `COMPLETED` with
`endedAt` (the Redis write precedes the durable write in the source). -/
def endMatch (env : ServerEnv) (now : Rat) : Except SvcError Unit × ServerEnv :=
  match env.stateBlob with
  | none => (.error .notFound, env)
  | some state =>
    let state' := { state with phase := .postgame, question := none, endsAt := none }
    let env₁ := { env with stateBlob := some state' }
    match env₁.matchDb with
    | none => (.error .runtimeError, env₁)
    | some m =>
      (.ok (), { env₁ with matchDb := some { m with status := .COMPLETED, endedAt := some now } })

/-- `MatchStateMachine.triggerStretch`: reloads the state and unconditionally
saves it back in `stretch` phase with a 30-second deadline — no check of the
current phase against `VALID_TRANSITIONS` — and schedules the 30-second
auto-advance timer (the trailing Bool reports that a timer was scheduled). -/
def triggerStretch (env : ServerEnv) (now : Rat) :
    (Except SvcError Unit × ServerEnv) × Bool :=
  match env.stateBlob with
  | none => ((.error .notFound, env), false)
  | some state =>
    let state' := { state with phase := .stretch, endsAt := some (now + 30000) }
    ((.ok (), { env with stateBlob := some state' }), true)

/-- The question-showing tail of `MatchStateMachine.nextQuestion`: loads the
question at the target indices, validates it (an invalid question aborts with
no store written), then saves the blob in `question` phase with the formatted
payload and a fresh deadline. -/
def nextQuestionShow (env : ServerEnv) (state : MatchState) (m : MatchRecord)
    (inning questionIdx : Nat) (now : Rat) :
    (Except SvcError Unit × ServerEnv) × Bool :=
  match (m.pack.get? inning).bind fun inn => inn.questions.get? questionIdx with
  | none => ((.error .runtimeError, env), false)
  | some question =>
    if !(validateQuestion question).valid then
      ((.error .invalidContent, env), false)
    else
      let state' :=
        { state with
          inning := inning
          questionIdx := questionIdx
          phase := .question
          question := some (formatQuestion env.matchId question inning questionIdx m.settings.timerSec)
          endsAt := some (now + m.settings.timerSec * 1000) }
      ((.ok (), { env with stateBlob := some state' }), false)

/-- `MatchStateMachine.nextQuestion`: reloads the state (note: no check of
the current phase), determines the next question index; when the inning is
exhausted it either ends the match (last inning), triggers the stretch
(inning index 6), or moves to the next inning's first question. The trailing
Bool reports whether a stretch timer was scheduled. -/
def nextQuestion (env : ServerEnv) (now : Rat) :
    (Except SvcError Unit × ServerEnv) × Bool :=
  match env.stateBlob with
  | none => ((.error .notFound, env), false)
  | some state =>
    match env.matchDb with
    | none => ((.error .notFound, env), false)
    | some m =>
      match m.pack.get? state.inning with
      | none => ((.error .runtimeError, env), false)
      | some currentInningData =>
        if state.questionIdx + 1 ≥ currentInningData.questions.length then
          if state.inning + 1 ≥ m.pack.length then
            (endMatch env now, false)
          else if state.inning == 6 then
            triggerStretch env now
          else
            nextQuestionShow env state m (state.inning + 1) 0 now
        else
          nextQuestionShow env state m state.inning (state.questionIdx + 1) now

/-- The `setTimeout` callback scheduled by `triggerStretch`. The source first
assigns `this.state.inning = 7; this.state.questionIdx = 0`, but these writes
only touch the in-memory object: `nextQuestion` immediately replaces
`this.state` with the stored blob via `loadState()`, so the callback's
observable behavior is exactly `nextQuestion` on the stored state, whatever
phase that state is in by the time the timer fires. -/
def stretchCallback (env : ServerEnv) (now : Rat) :
    (Except SvcError Unit × ServerEnv) × Bool :=
  nextQuestion env now

/-- `MatchStateMachine.skipQuestion`: advances only from `question` or
`reveal` phase. -/
def skipQuestion (env : ServerEnv) (now : Rat) :
    (Except SvcError Unit × ServerEnv) × Bool :=
  match env.stateBlob with
  | none => ((.error .notFound, env), false)
  | some state =>
    if state.phase = .question ∨ state.phase = .reveal then
      nextQuestion env now
    else
      ((.error .stateConflict, env), false)

/-- The digits-to-value accumulator used by the numeric parse below. -/
def digitsToNat (l : List Char) : Nat :=
  l.foldl (fun acc c => acc * 10 + (c.toNat - ('0').toNat)) 0

/-- `parseFloat(choice)` on decimal literals: optional sign, then digits with
at most one decimal point, parsing the longest numeric prefix and ignoring
any trailing characters; `none` models the `NaN` result when no leading
number exists. (Exponents and special forms like `Infinity` are outside the
inputs this system scores.) -/
def parseFloatQ (s : String) : Option Rat :=
  let cs := s.data.dropWhile Char.isWhitespace
  let signed : Rat × List Char :=
    match cs with
    | '-' :: rest => (-1, rest)
    | '+' :: rest => (1, rest)
    | _ => (1, cs)
  let intDigits := signed.2.takeWhile Char.isDigit
  let afterInt := signed.2.dropWhile Char.isDigit
  let fracDigits : List Char :=
    match afterInt with
    | '.' :: rest => rest.takeWhile Char.isDigit
    | _ => []
  if intDigits.isEmpty && fracDigits.isEmpty then
    none
  else
    some (signed.1 * ((digitsToNat intDigits : Rat) +
      (digitsToNat fracDigits : Rat) / ((10 : Rat) ^ fracDigits.length)))

/-- Whether an answer row belongs to the question
`(matchId, inningIdx, questionIdx)`. -/
def questionKeyMatch (matchId : String) (inningIdx questionIdx : Nat)
    (a : AnswerRow) : Bool :=
  a.matchId == matchId && a.inningIdx == inningIdx && a.questionIdx == questionIdx

/-- The running state of the minimum-distance scan in
`handleClosestQuestion`: `minDistance` (`none` plays the role of the initial
`Infinity`) and the ids of the answers currently achieving it. -/
structure ClosestScan where
  minDistance : Option Rat
  closestAnswerIds : List Nat
deriving DecidableEq

/-- One iteration of the `for` loop in `handleClosestQuestion`: skip
non-numeric choices, reset the winner list on a strictly smaller distance,
append on an exact tie. -/
def closestStep (correctValue : Rat) (acc : ClosestScan) (a : AnswerRow) :
    ClosestScan :=
  match parseFloatQ a.choice with
  | none => acc
  | some v =>
    let distance := |correctValue - v|
    match acc.minDistance with
    | none => ⟨some distance, [a.id]⟩
    | some m =>
      if distance < m then ⟨some distance, [a.id]⟩
      else if distance == m then ⟨some m, acc.closestAnswerIds ++ [a.id]⟩
      else acc

/-- `handleClosestQuestion` from `reveal.service.ts`: over all ledger rows of
the question, find the minimum `|correctValue - parseFloat(choice)|` among
the numeric choices and amend every row achieving it to
`isCorrect = true, bonusAwarded = false` (`updateMany` by id); all other rows
are left as they are. An empty scan (no answers, or none numeric) amends
nothing, matching the early return / skipped update in the source. -/
def handleClosestQuestion (ledger : List AnswerRow) (matchId : String)
    (inningIdx questionIdx : Nat) (correctValue : Rat) : List AnswerRow :=
  let answers := ledger.filter (questionKeyMatch matchId inningIdx questionIdx)
  let scan := answers.foldl (closestStep correctValue) ⟨none, []⟩
  ledger.map fun a =>
    if scan.closestAnswerIds.contains a.id then
      { a with isCorrect := true, bonusAwarded := false }
    else a

/-- One row of the per-question answer listing assembled by
`getQuestionAnswers`. -/
structure QuestionAnswerView where
  playerId : String
  nickname : String
  choice : String
  isCorrect : Bool
  runsAwarded : Int
  bonusAwarded : Bool
  answerMs : Rat
deriving DecidableEq

/-- `getQuestionAnswers` from `answer.service.ts`: when the Redis cache holds
any entry for the question it returns the cached data — correctness and runs
exactly as frozen at submission time — and only on a cache miss does it fall
back to the database rows, recomputing `runsAwarded` as
`bonusAwarded ? 4 : isCorrect ? 1 : 0`. Nicknames come from the player rows
(`Unknown` when the cached player id resolves to nothing). -/
def getQuestionAnswers (players : List MatchPlayerRow) (cache : List CacheEntry)
    (ledger : List AnswerRow) (matchId : String) (inningIdx questionIdx : Nat) :
    List QuestionAnswerView :=
  let cachedAnswers := cache.filter fun e =>
    e.matchId == matchId && e.inningIdx == inningIdx && e.questionIdx == questionIdx
  if cachedAnswers.length > 0 then
    cachedAnswers.map fun e =>
      { playerId := e.playerId
        nickname := ((players.find? fun p => p.id == e.playerId).map (·.nickname)).getD "Unknown"
        choice := e.choice
        isCorrect := e.isCorrect
        runsAwarded := e.runsAwarded
        bonusAwarded := e.bonusAwarded
        answerMs := e.answerMs }
  else
    (ledger.filter (questionKeyMatch matchId inningIdx questionIdx)).map fun a =>
      { playerId := a.playerId
        nickname := ((players.find? fun p => p.id == a.playerId).map (·.nickname)).getD ""
        choice := a.choice
        isCorrect := a.isCorrect
        runsAwarded := if a.bonusAwarded then 4 else if a.isCorrect then 1 else 0
        bonusAwarded := a.bonusAwarded
        answerMs := a.answerMs }

/-- `calculateInningRuns` from `answer.service.ts`: total runs of the correct
answers of one inning, a bonus answer counting 4 and any other correct answer
counting 1. -/
def calculateInningRuns (ledger : List AnswerRow) (matchId : String)
    (inningIdx : Nat) : Int :=
  (ledger.filter fun a =>
      a.matchId == matchId && a.inningIdx == inningIdx && a.isCorrect).foldl
    (fun total a => total + (if a.bonusAwarded then 4 else 1)) 0

/-- `updateLineScore` from `reveal.service.ts` (a pass-through to
`calculateInningRuns`). -/
def updateLineScore (ledger : List AnswerRow) (matchId : String)
    (inningIdx : Nat) : Int :=
  calculateInningRuns ledger matchId inningIdx

/-- One per-player entry of the reveal payload. -/
structure PlayerResult where
  playerId : String
  nickname : String
  isCorrect : Bool
  runsAwarded : Int
deriving DecidableEq

/-- The reveal payload (`QuestionRevealPayload` in `@jaysgame/shared`). The
`correctAnswer` is kept as a value (the source stringifies it). -/
structure QuestionRevealPayload where
  questionId : String
  correctAnswer : Option AnswerValue
  correctIndex : Option Int
  clipUrl : Option String
  playerResults : List PlayerResult
deriving DecidableEq

/-- The `correctValue` of a closest question (0 elsewhere; only read under a
`type === closest` guard, mirroring the source's type narrowing). -/
def Question.correctValueD : Question → Rat
  | .closest _ v _ _ => v
  | _ => 0

/-- `generateRevealPayload` from `reveal.service.ts`: parses the indices from
the question id (ids produced by `formatQuestion` always parse; the fallback
mirrors the NaN indices matching no rows), runs the closest-question
amendment on the ledger for `closest` questions, then builds the per-player
results via `getQuestionAnswers` — thus from the Redis cache whenever it is
non-empty — and returns the payload together with the (possibly amended)
ledger. -/
def generateRevealPayload (players : List MatchPlayerRow)
    (cache : List CacheEntry) (ledger : List AnswerRow) (matchId : String)
    (questionId : String) (question : Question) :
    QuestionRevealPayload × List AnswerRow :=
  let idx := (parseQuestionId questionId).getD (0, 0)
  let ledger' :=
    if question.qtype = .closest then
      handleClosestQuestion ledger matchId idx.1 idx.2 question.correctValueD
    else ledger
  let answers := getQuestionAnswers players cache ledger' matchId idx.1 idx.2
  ({ questionId := questionId
     correctAnswer := getCorrectAnswer question
     correctIndex :=
       match question with
       | .mc _ _ i _ _ => some i
       | .media _ _ i _ _ => some i
       | _ => none
     clipUrl := question.clipUrl
     playerResults := answers.map fun a =>
       { playerId := a.playerId
         nickname := a.nickname
         isCorrect := a.isCorrect
         runsAwarded := a.runsAwarded } }, ledger')

/-- `MatchStateMachine.revealAnswer`: only from `question` phase; generates
the reveal payload (amending the ledger for closest questions), recomputes
the inning's line-score entry from the ledger, and saves the blob in `reveal`
phase with the deadline cleared. Failures leave every store untouched. -/
def revealAnswer (env : ServerEnv) :
    Except SvcError QuestionRevealPayload × ServerEnv :=
  match env.stateBlob with
  | none => (.error .notFound, env)
  | some state =>
    if state.phase != .question then
      (.error .stateConflict, env)
    else
      match state.question with
      | none => (.error .runtimeError, env)
      | some currentQuestion =>
        match env.matchDb with
        | none => (.error .notFound, env)
        | some m =>
          match (m.pack.get? state.inning).bind fun inn =>
              inn.questions.get? state.questionIdx with
          | none => (.error .runtimeError, env)
          | some question =>
            let pr := generateRevealPayload env.players env.cache env.ledger
              env.matchId currentQuestion.id question
            let inningRuns := updateLineScore pr.2 env.matchId state.inning
            let state' :=
              { state with
                lineScore := state.lineScore.set state.inning inningRuns
                phase := .reveal
                endsAt := none }
            (.ok pr.1, { env with stateBlob := some state', ledger := pr.2 })

/-- The JS sort comparator in `MatchStateMachine.updateLeaderboard`, as the
Boolean total preorder it induces: `a` may come before `b` when `a` has more
runs, or equal runs and no larger total time. -/
def leaderboardLE (a b : PlayerScore) : Bool :=
  (b.runs < a.runs) || (a.runs == b.runs && a.totalTimeMs ≤ b.totalTimeMs)

/-- `MatchStateMachine.updateLeaderboard`: saves the blob with the given
scores sorted by descending `runs`, ties broken by ascending `totalTimeMs`
(JS `Array.prototype.sort` is stable, modelled by the stable `mergeSort`). -/
def updateLeaderboard (state : MatchState) (players : List PlayerScore) :
    MatchState :=
  { state with leaderboard := players.mergeSort leaderboardLE }

/-- The leaderboard recomputation inside the `answer:submit` handler in
`host.handler.ts`: for every non-left player of the match, rebuild the score
from scratch from that player's ledger rows — correct count, total count,
`runs = Σ(correct ? (bonus ? 4 : 1) : 0)` and `totalTimeMs = Σ answerMs`. -/
def computePlayerScores (players : List MatchPlayerRow) (ledger : List AnswerRow)
    (matchId : String) : List PlayerScore :=
  (players.filter fun p => p.matchId == matchId && p.leftAt == none).map fun p =>
    let answers := ledger.filter fun a => a.matchId == matchId && a.playerId == p.id
    { playerId := p.id
      nickname := p.nickname
      avatar := p.avatar
      runs := answers.foldl
        (fun sum a => if !a.isCorrect then sum else sum + (if a.bonusAwarded then 4 else 1)) 0
      correct := ((answers.filter (·.isCorrect)).length : Int)
      total := (answers.length : Int)
      totalTimeMs := answers.foldl (fun sum a => sum + a.answerMs) 0 }

/-- Errors surfaced by the `answer:submit` socket handler (each corresponds
to an `answer:submit:error` emission in `host.handler.ts`). -/
inductive HandlerError where
  | notAuthenticated
  | playerNotFoundInMatch
  | matchNotFound
  | questionNotFound
  | submitFailed (e : SvcError)
deriving DecidableEq

/-- The `answer:submit` handler from `host.handler.ts`: authenticates the
player, checks the player belongs to the match, loads the match with its
pack, parses the indices from the submitted `questionId` and looks the
question up in the pack (`questionNotFound` when absent — the only
question-related rejection: the handler never compares the submission against
the question the match is currently showing, so the current phase and current
question never enter the decision), then delegates to `submitAnswer`. Returns
the submit result with the updated ledger and cache. -/
def answerSubmitHandler (env : ServerEnv) (authPlayerId : Option String)
    (matchId questionId choice : String) (clientLatencyMs : Rat) :
    Except HandlerError (SubmitAnswerResult × List AnswerRow × List CacheEntry) :=
  match authPlayerId with
  | none => .error .notAuthenticated
  | some playerId =>
    match env.players.find? fun p => p.id == playerId with
    | none => .error .playerNotFoundInMatch
    | some player =>
      if player.matchId != matchId then .error .playerNotFoundInMatch
      else
        match env.matchDb with
        | none => .error .matchNotFound
        | some m =>
          let question : Option Question :=
            (parseQuestionId questionId).bind fun idx =>
              (m.pack.get? idx.1).bind fun inn => inn.questions.get? idx.2
          match question with
          | none => .error .questionNotFound
          | some q =>
            match submitAnswer env.ledger env.cache
                { matchId := matchId
                  playerId := playerId
                  questionId := questionId
                  choice := choice
                  clientLatencyMs := clientLatencyMs } q m.settings with
            | .error e => .error (.submitFailed e)
            | .ok out => .ok out

/-! Claim-side definitions, phrased from the spec's words, to be compared
with the source-derived definitions above. -/

/-- The number of ledger rows carrying a given
`(matchId, playerId, inningIdx, questionIdx)` tuple. -/
def countAnswersForKey (ledger : List AnswerRow) (matchId playerId : String)
    (inningIdx questionIdx : Nat) : Nat :=
  (ledger.filter fun a =>
    a.matchId == matchId && a.playerId == playerId &&
    a.inningIdx == inningIdx && a.questionIdx == questionIdx).length

/-- The spec's statement that no correct answer was previously recorded in
the ledger for this exact question. -/
def noCorrectAnswerRecorded (ledger : List AnswerRow) (matchId : String)
    (inningIdx questionIdx : Nat) : Prop :=
  ¬ ∃ a ∈ ledger, a.matchId = matchId ∧ a.inningIdx = inningIdx ∧
    a.questionIdx = questionIdx ∧ a.isCorrect = true

/-- The scoring rule exactly as the spec words it: 0 runs when incorrect;
4 runs with the bonus flag on a grand slam (setting enabled and first correct
answer for the question); 4 runs with the bonus flag when the speed bonus is
enabled, it is not a grand slam, and `answerMs ≤ 0.25 × timerSec × 1000`;
otherwise 1 run without the bonus flag. -/
def runsPerSpec (isCorrect : Bool) (answerMs : Rat) (settings : MatchSettings)
    (firstCorrect : Bool) : RunsResult :=
  if isCorrect = false then
    { runs := 0, bonusAwarded := false }
  else if settings.grandSlam = true ∧ firstCorrect = true then
    { runs := 4, bonusAwarded := true }
  else if settings.speedBonus = true ∧ ¬(settings.grandSlam = true ∧ firstCorrect = true) ∧
      answerMs ≤ (25 / 100 : Rat) * settings.timerSec * 1000 then
    { runs := 4, bonusAwarded := true }
  else
    { runs := 1, bonusAwarded := false }

/-- The spec's characterization of a closest-question winner: the row's
choice parses as a number and achieves the minimum of
`|correctValue − parsedChoice|` over all numeric submissions of the
question (`rows` is the list of the question's rows). -/
def achievesMin (correctValue : Rat) (rows : List AnswerRow) (a : AnswerRow) : Prop :=
  ∃ v, parseFloatQ a.choice = some v ∧
    ∀ b ∈ rows, ∀ w, parseFloatQ b.choice = some w →
      |correctValue - v| ≤ |correctValue - w|

/-- The `(id, distance)` pairs of the numeric submissions among a list of
rows. -/
def parsedDistances (correctValue : Rat) (rows : List AnswerRow) :
    List (Nat × Rat) :=
  rows.filterMap fun a => (parseFloatQ a.choice).map fun v => (a.id, |correctValue - v|)

/-- In-bounds correct index, as the claim words it (trivial for the types
without an index). -/
def correctIndexInBounds : Question → Prop
  | .mc _ choices correctIndex _ _ => 0 ≤ correctIndex ∧ correctIndex < choices.length
  | .media _ choices correctIndex _ _ => 0 ≤ correctIndex ∧ correctIndex < choices.length
  | .tf _ _ _ _ => True
  | .closest _ _ _ _ => True

/-- The spec's leaderboard run formula `Σ(correct ? (bonus ? 4 : 1) : 0)`. -/
def runsOfAnswersSpec (answers : List AnswerRow) : Int :=
  (answers.map fun a => if a.isCorrect then (if a.bonusAwarded then 4 else 1) else 0).sum

/-- The spec's leaderboard time formula `Σ answerMs`. -/
def totalTimeOfAnswersSpec (answers : List AnswerRow) : Rat :=
  (answers.map (·.answerMs)).sum

/-- The spec's leaderboard order: descending `runs`, ties broken by
ascending `totalTimeMs`. -/
def leaderboardOrder (a b : PlayerScore) : Prop :=
  b.runs < a.runs ∨ (a.runs = b.runs ∧ a.totalTimeMs ≤ b.totalTimeMs)

/-! Helper lemmas. -/

lemma calculateRuns_eq_runsPerSpec (c : Bool) (ms : Rat) (s : MatchSettings)
    (g : Bool) : calculateRuns c ms s g = runsPerSpec c ms s g := by
  obtain ⟨t, gs, sb⟩ := s
  have heq : (25 / 100 : Rat) * t * 1000 = t * 1000 * (25 / 100) := by ring
  cases c <;> cases gs <;> cases g <;> cases sb <;>
    by_cases hms : ms ≤ t * 1000 * (25 / 100) <;>
    simp [calculateRuns, runsPerSpec, hms, heq]

lemma isGrandSlam_iff (ledger : List AnswerRow) (m : String) (i q : Nat) :
    isGrandSlam ledger m i q = true ↔ noCorrectAnswerRecorded ledger m i q := by
  unfold isGrandSlam noCorrectAnswerRecorded
  rw [beq_iff_eq, List.length_eq_zero, List.filter_eq_nil_iff]
  constructor
  · rintro h ⟨a, ha, h1, h2, h3, h4⟩
    exact h a ha (by simp [h1, h2, h3, h4])
  · intro h a ha hcond
    simp only [Bool.and_eq_true, beq_iff_eq] at hcond
    exact h ⟨a, ha, hcond.1.1.1, hcond.1.1.2, hcond.1.2, hcond.2⟩

lemma hasAnswerKey_false_iff (ledger : List AnswerRow) (m p : String) (i q : Nat) :
    hasAnswerKey ledger m p i q = false ↔
      ∀ a ∈ ledger, ¬(a.matchId = m ∧ a.playerId = p ∧ a.inningIdx = i ∧ a.questionIdx = q) := by
  unfold hasAnswerKey
  rw [Bool.eq_false_iff, ne_eq, List.any_eq_true]
  constructor
  · rintro h a ha ⟨h1, h2, h3, h4⟩
    exact h ⟨a, ha, by simp [h1, h2, h3, h4]⟩
  · rintro h ⟨a, ha, hcond⟩
    simp only [Bool.and_eq_true, beq_iff_eq] at hcond
    exact h a ha ⟨hcond.1.1.1, hcond.1.1.2, hcond.1.2, hcond.2⟩

lemma submitAnswer_duplicate {ledger : List AnswerRow} {cache : List CacheEntry}
    {req : SubmitAnswerRequest} {question : Question} {settings : MatchSettings}
    {i q : Nat} (hp : parseQuestionId req.questionId = some (i, q))
    (hk : hasAnswerKey ledger req.matchId req.playerId i q = true) :
    submitAnswer ledger cache req question settings = .error .duplicateSubmission := by
  unfold submitAnswer matchAnswerCreate
  rw [hp]
  dsimp only
  simp [hk]

lemma submitAnswer_eval {ledger : List AnswerRow} {cache : List CacheEntry}
    {req : SubmitAnswerRequest} {question : Question} {settings : MatchSettings}
    {i q : Nat} (hp : parseQuestionId req.questionId = some (i, q))
    (hk : hasAnswerKey ledger req.matchId req.playerId i q = false) :
    submitAnswer ledger cache req question settings = .ok
      ({ isCorrect := isAnswerCorrect question req.choice
         correctAnswer := getCorrectAnswer question
         runsAwarded := (calculateRuns (isAnswerCorrect question req.choice)
           req.clientLatencyMs settings (isGrandSlam ledger req.matchId i q)).runs
         bonusAwarded := (calculateRuns (isAnswerCorrect question req.choice)
           req.clientLatencyMs settings (isGrandSlam ledger req.matchId i q)).bonusAwarded
         answerMs := req.clientLatencyMs },
       ledger ++
        [{ id := ledger.length
           matchId := req.matchId
           playerId := req.playerId
           inningIdx := i
           questionIdx := q
           choice := req.choice
           isCorrect := isAnswerCorrect question req.choice
           answerMs := req.clientLatencyMs
           bonusAwarded := (calculateRuns (isAnswerCorrect question req.choice)
             req.clientLatencyMs settings (isGrandSlam ledger req.matchId i q)).bonusAwarded }],
       cache ++
        [{ matchId := req.matchId
           inningIdx := i
           questionIdx := q
           playerId := req.playerId
           choice := req.choice
           isCorrect := isAnswerCorrect question req.choice
           runsAwarded := (calculateRuns (isAnswerCorrect question req.choice)
             req.clientLatencyMs settings (isGrandSlam ledger req.matchId i q)).runs
           bonusAwarded := (calculateRuns (isAnswerCorrect question req.choice)
             req.clientLatencyMs settings (isGrandSlam ledger req.matchId i q)).bonusAwarded
           answerMs := req.clientLatencyMs }]) := by
  unfold submitAnswer matchAnswerCreate
  rw [hp]
  dsimp only
  simp [hk]

lemma submitAnswer_ok_elim {ledger : List AnswerRow} {cache : List CacheEntry}
    {req : SubmitAnswerRequest} {question : Question} {settings : MatchSettings}
    {out : SubmitAnswerResult × List AnswerRow × List CacheEntry}
    (h : submitAnswer ledger cache req question settings = .ok out) :
    ∃ i q, parseQuestionId req.questionId = some (i, q) ∧
      hasAnswerKey ledger req.matchId req.playerId i q = false ∧
      out.1 = { isCorrect := isAnswerCorrect question req.choice
                correctAnswer := getCorrectAnswer question
                runsAwarded := (calculateRuns (isAnswerCorrect question req.choice)
                  req.clientLatencyMs settings (isGrandSlam ledger req.matchId i q)).runs
                bonusAwarded := (calculateRuns (isAnswerCorrect question req.choice)
                  req.clientLatencyMs settings (isGrandSlam ledger req.matchId i q)).bonusAwarded
                answerMs := req.clientLatencyMs } ∧
      out.2.1 = ledger ++
        [{ id := ledger.length
           matchId := req.matchId
           playerId := req.playerId
           inningIdx := i
           questionIdx := q
           choice := req.choice
           isCorrect := isAnswerCorrect question req.choice
           answerMs := req.clientLatencyMs
           bonusAwarded := (calculateRuns (isAnswerCorrect question req.choice)
             req.clientLatencyMs settings (isGrandSlam ledger req.matchId i q)).bonusAwarded }] ∧
      out.2.2 = cache ++
        [{ matchId := req.matchId
           inningIdx := i
           questionIdx := q
           playerId := req.playerId
           choice := req.choice
           isCorrect := isAnswerCorrect question req.choice
           runsAwarded := (calculateRuns (isAnswerCorrect question req.choice)
             req.clientLatencyMs settings (isGrandSlam ledger req.matchId i q)).runs
           bonusAwarded := (calculateRuns (isAnswerCorrect question req.choice)
             req.clientLatencyMs settings (isGrandSlam ledger req.matchId i q)).bonusAwarded
           answerMs := req.clientLatencyMs }] := by
  obtain ⟨i, q, hp⟩ : ∃ i q, parseQuestionId req.questionId = some (i, q) := by
    cases hpq : parseQuestionId req.questionId with
    | none =>
      unfold submitAnswer at h
      rw [hpq] at h
      exact absurd h (by simp)
    | some iq =>
      obtain ⟨i, q⟩ := iq
      exact ⟨i, q, rfl⟩
  cases hkey : hasAnswerKey ledger req.matchId req.playerId i q with
  | true =>
    rw [submitAnswer_duplicate hp hkey] at h
    exact absurd h (by simp)
  | false =>
    rw [submitAnswer_eval hp hkey] at h
    simp only [Except.ok.injEq] at h
    exact ⟨i, q, hp, hkey, by rw [← h], by rw [← h], by rw [← h]⟩

/-! Claim theorems. -/

/-- C10: every question accepted by `validateQuestion` — which for
multiple-choice and media questions requires at least 2 choices and a
`correctIndex` within `[0, choices.length)` — has its `choices[correctIndex]`
access in bounds, so `getCorrectAnswer` (and `isAnswerCorrect`, which indexes
identically) returns a defined value; the undefined branch is unreachable
under the validation precondition. -/
theorem validateQuestion_implies_defined_access (q : Question)
    (h : (validateQuestion q).valid = true) :
    (getCorrectAnswer q).isSome = true ∧ correctIndexInBounds q := by
  cases q with
  | mc text choices correctIndex mu cu =>
    simp only [validateQuestion, Question.text] at h
    split_ifs at h with h1 h2 h3
    push_neg at h3
    obtain ⟨hb1, hb2⟩ := h3
    have hlt : correctIndex.toNat < choices.length := by omega
    constructor
    · simp only [getCorrectAnswer, jsIndex, Option.isSome_map,
        if_neg (by omega : ¬correctIndex < 0), List.get?_eq_getElem?,
        List.getElem?_eq_getElem hlt]
      rfl
    · exact ⟨by omega, by omega⟩
  | media text choices correctIndex mu cu =>
    simp only [validateQuestion, Question.text] at h
    split_ifs at h with h1 h2 h3 h4
    push_neg at h4
    obtain ⟨hb1, hb2⟩ := h4
    have hlt : correctIndex.toNat < choices.length := by omega
    constructor
    · simp only [getCorrectAnswer, jsIndex, Option.isSome_map,
        if_neg (by omega : ¬correctIndex < 0), List.get?_eq_getElem?,
        List.getElem?_eq_getElem hlt]
      rfl
    · exact ⟨by omega, by omega⟩
  | tf text ca mu cu => exact ⟨by simp [getCorrectAnswer], trivial⟩
  | closest text cv mu cu => exact ⟨by simp [getCorrectAnswer], trivial⟩

/-- Witness for C10 on a concrete validated multiple-choice question. -/
theorem validateQuestion_implies_defined_access_witness :
    (validateQuestion (.mc "Q" ["A", "B"] 0 none none)).valid = true ∧
      ((getCorrectAnswer (.mc "Q" ["A", "B"] 0 none none)).isSome = true ∧
        correctIndexInBounds (.mc "Q" ["A", "B"] 0 none none)) :=
  ⟨by decide, validateQuestion_implies_defined_access _ (by decide)⟩

/-- C3: the runs a submitted answer is awarded are exactly the spec's cases —
0 when incorrect; 4 with the bonus flag on a grand slam (setting enabled, no
correct answer yet recorded in the ledger for this exact question); 4 with
the bonus flag on a speed bonus (enabled, not a grand slam, and
`answerMs ≤ 0.25 × timerSec × 1000`); otherwise 1 without the bonus flag.
`calculateRuns` coincides with the spec's rule, `isGrandSlam` decides exactly
the no-correct-answer-recorded condition, and `submitAnswer` awards its
result accordingly. -/
theorem submitAnswer_runs_match_spec :
    (∀ (c : Bool) (ms : Rat) (s : MatchSettings) (g : Bool),
      calculateRuns c ms s g = runsPerSpec c ms s g) ∧
    (∀ (ledger : List AnswerRow) (m : String) (i q : Nat),
      isGrandSlam ledger m i q = true ↔ noCorrectAnswerRecorded ledger m i q) ∧
    (∀ (ledger : List AnswerRow) (cache : List CacheEntry)
      (req : SubmitAnswerRequest) (question : Question) (settings : MatchSettings)
      (out : SubmitAnswerResult × List AnswerRow × List CacheEntry) (i q : Nat),
      parseQuestionId req.questionId = some (i, q) →
      submitAnswer ledger cache req question settings = .ok out →
      out.1.runsAwarded = (runsPerSpec (isAnswerCorrect question req.choice)
        req.clientLatencyMs settings (isGrandSlam ledger req.matchId i q)).runs ∧
      out.1.bonusAwarded = (runsPerSpec (isAnswerCorrect question req.choice)
        req.clientLatencyMs settings (isGrandSlam ledger req.matchId i q)).bonusAwarded) := by
  refine ⟨calculateRuns_eq_runsPerSpec, isGrandSlam_iff, ?_⟩
  intro ledger cache req question settings out i q hp h
  obtain ⟨i', q', hp', hk', hres, _, _⟩ := submitAnswer_ok_elim h
  rw [hp] at hp'
  obtain ⟨rfl, rfl⟩ : i = i' ∧ q = q' := by
    obtain ⟨h1, h2⟩ := Prod.mk.injEq .. ▸ (Option.some.injEq .. ▸ hp')
    exact ⟨h1, h2⟩
  rw [hres, ← calculateRuns_eq_runsPerSpec]
  exact ⟨rfl, rfl⟩

/-- Witness for C3: a correct answer with grand slam enabled on an empty
ledger is awarded 4 runs with the bonus flag. -/
theorem submitAnswer_runs_match_spec_witness :
    ({ isCorrect := true, correctAnswer := some (.str "A"), runsAwarded := 4,
       bonusAwarded := true, answerMs := 2000 } : SubmitAnswerResult).runsAwarded =
      (runsPerSpec (isAnswerCorrect (.mc "Q" ["A", "B"] 0 none none) "A")
        (2000 : Rat) ⟨20, true, false⟩ (isGrandSlam [] "m" 0 0)).runs ∧
    ({ isCorrect := true, correctAnswer := some (.str "A"), runsAwarded := 4,
       bonusAwarded := true, answerMs := 2000 } : SubmitAnswerResult).bonusAwarded =
      (runsPerSpec (isAnswerCorrect (.mc "Q" ["A", "B"] 0 none none) "A")
        (2000 : Rat) ⟨20, true, false⟩ (isGrandSlam [] "m" 0 0)).bonusAwarded :=
  submitAnswer_runs_match_spec.2.2 [] []
    ⟨"m", "p", "m-0-0", "A", 2000⟩ (.mc "Q" ["A", "B"] 0 none none) ⟨20, true, false⟩
    ({ isCorrect := true, correctAnswer := some (.str "A"), runsAwarded := 4,
       bonusAwarded := true, answerMs := 2000 },
     [{ id := 0, matchId := "m", playerId := "p", inningIdx := 0, questionIdx := 0,
        choice := "A", isCorrect := true, answerMs := 2000, bonusAwarded := true }],
     [{ matchId := "m", inningIdx := 0, questionIdx := 0, playerId := "p",
        choice := "A", isCorrect := true, runsAwarded := 4, bonusAwarded := true,
        answerMs := 2000 }])
    0 0 rfl rfl

/-- C5 counterexample: two submissions identical except for the
client-reported latency (100ms vs 6000ms, timer 20s, speed bonus enabled)
are awarded different runs — 4 with bonus vs 1 without — because
`submitAnswer` feeds `clientLatencyMs` straight into the speed-bonus
comparison. -/
theorem submitAnswer_latency_counterexample :
    ((submitAnswer [] [] ⟨"m", "p", "m-0-0", "A", 100⟩
        (.mc "Q" ["A", "B"] 0 none none) ⟨20, false, true⟩).toOption.map
      fun out => (out.1.runsAwarded, out.1.bonusAwarded)) = some (4, true) ∧
    ((submitAnswer [] [] ⟨"m", "p", "m-0-0", "A", 6000⟩
        (.mc "Q" ["A", "B"] 0 none none) ⟨20, false, true⟩).toOption.map
      fun out => (out.1.runsAwarded, out.1.bonusAwarded)) = some (1, false) ∧
    (⟨"m", "p", "m-0-0", "A", 100⟩ : SubmitAnswerRequest) =
      { (⟨"m", "p", "m-0-0", "A", 6000⟩ : SubmitAnswerRequest) with
        clientLatencyMs := 100 } := by
  refine ⟨?_, ?_, rfl⟩
  · rw [@submitAnswer_eval [] [] ⟨"m", "p", "m-0-0", "A", 100⟩
      (.mc "Q" ["A", "B"] 0 none none) ⟨20, false, true⟩ 0 0 rfl rfl]
    have hc : calculateRuns (isAnswerCorrect (.mc "Q" ["A", "B"] 0 none none) "A")
        100 ⟨20, false, true⟩ (isGrandSlam [] "m" 0 0) = ⟨4, true⟩ := by
      rw [show isAnswerCorrect (.mc "Q" ["A", "B"] 0 none none) "A" = true from rfl,
        show isGrandSlam [] "m" 0 0 = true from rfl]
      unfold calculateRuns
      norm_num
    rw [hc]
    rfl
  · rw [@submitAnswer_eval [] [] ⟨"m", "p", "m-0-0", "A", 6000⟩
      (.mc "Q" ["A", "B"] 0 none none) ⟨20, false, true⟩ 0 0 rfl rfl]
    have hc : calculateRuns (isAnswerCorrect (.mc "Q" ["A", "B"] 0 none none) "A")
        6000 ⟨20, false, true⟩ (isGrandSlam [] "m" 0 0) = ⟨1, false⟩ := by
      rw [show isAnswerCorrect (.mc "Q" ["A", "B"] 0 none none) "A" = true from rfl,
        show isGrandSlam [] "m" 0 0 = true from rfl]
      unfold calculateRuns
      norm_num
    rw [hc]
    rfl

/-- C5 amended: the `answerMs` recorded and compared against the speed-bonus
threshold is the client-reported `clientLatencyMs` passed through unchanged —
no server-side elapsed time enters the call — so submissions differing only
in the reported latency can be awarded different runs. -/
theorem submitAnswer_uses_client_latency (ledger : List AnswerRow)
    (cache : List CacheEntry) (req : SubmitAnswerRequest) (question : Question)
    (settings : MatchSettings)
    (out : SubmitAnswerResult × List AnswerRow × List CacheEntry) (i q : Nat)
    (hp : parseQuestionId req.questionId = some (i, q))
    (h : submitAnswer ledger cache req question settings = .ok out) :
    out.1.answerMs = req.clientLatencyMs ∧
    out.1.runsAwarded = (calculateRuns (isAnswerCorrect question req.choice)
      req.clientLatencyMs settings (isGrandSlam ledger req.matchId i q)).runs ∧
    out.1.bonusAwarded = (calculateRuns (isAnswerCorrect question req.choice)
      req.clientLatencyMs settings (isGrandSlam ledger req.matchId i q)).bonusAwarded := by
  obtain ⟨i', q', hp', hk', hres, _, _⟩ := submitAnswer_ok_elim h
  rw [hp] at hp'
  obtain ⟨rfl, rfl⟩ : i = i' ∧ q = q' := by
    obtain ⟨h1, h2⟩ := Prod.mk.injEq .. ▸ (Option.some.injEq .. ▸ hp')
    exact ⟨h1, h2⟩
  rw [hres]
  exact ⟨rfl, rfl, rfl⟩

/-- Witness for the amended C5 on a concrete grand-slam submission. -/
theorem submitAnswer_uses_client_latency_witness :
    ({ isCorrect := true, correctAnswer := some (.str "A"), runsAwarded := 4,
       bonusAwarded := true, answerMs := 2000 } : SubmitAnswerResult).answerMs =
      (⟨"m", "p", "m-0-0", "A", 2000⟩ : SubmitAnswerRequest).clientLatencyMs ∧
    ({ isCorrect := true, correctAnswer := some (.str "A"), runsAwarded := 4,
       bonusAwarded := true, answerMs := 2000 } : SubmitAnswerResult).runsAwarded =
      (calculateRuns (isAnswerCorrect (.mc "Q" ["A", "B"] 0 none none) "A")
        (2000 : Rat) ⟨20, true, false⟩ (isGrandSlam [] "m" 0 0)).runs ∧
    ({ isCorrect := true, correctAnswer := some (.str "A"), runsAwarded := 4,
       bonusAwarded := true, answerMs := 2000 } : SubmitAnswerResult).bonusAwarded =
      (calculateRuns (isAnswerCorrect (.mc "Q" ["A", "B"] 0 none none) "A")
        (2000 : Rat) ⟨20, true, false⟩ (isGrandSlam [] "m" 0 0)).bonusAwarded :=
  submitAnswer_uses_client_latency [] []
    ⟨"m", "p", "m-0-0", "A", 2000⟩ (.mc "Q" ["A", "B"] 0 none none) ⟨20, true, false⟩
    ({ isCorrect := true, correctAnswer := some (.str "A"), runsAwarded := 4,
       bonusAwarded := true, answerMs := 2000 },
     [{ id := 0, matchId := "m", playerId := "p", inningIdx := 0, questionIdx := 0,
        choice := "A", isCorrect := true, answerMs := 2000, bonusAwarded := true }],
     [{ matchId := "m", inningIdx := 0, questionIdx := 0, playerId := "p",
        choice := "A", isCorrect := true, runsAwarded := 4, bonusAwarded := true,
        answerMs := 2000 }])
    0 0 rfl rfl

/-- A concrete lobby-phase state, used to exercise the transition guards. -/
def lobbyStateC2 : MatchState :=
  { phase := .lobby, inning := 0, questionIdx := 0, question := none,
    endsAt := none, lineScore := [], leaderboard := [] }

/-- A concrete environment holding `lobbyStateC2`. -/
def lobbyEnvC2 : ServerEnv :=
  { matchId := "m", stateBlob := some lobbyStateC2, matchDb := none,
    ledger := [], cache := [], players := [] }

/-- C2 counterexample: `stretch` is not adjacent from `lobby` in
`VALID_TRANSITIONS`, yet `triggerStretch` invoked on a lobby-phase match
succeeds and rewrites the stored state to `stretch` — it does not fail with a
state conflict and does not leave the stored state unchanged. -/
theorem triggerStretch_bypasses_transition_table :
    (VALID_TRANSITIONS .lobby).contains .stretch = false ∧
    (triggerStretch lobbyEnvC2 0).1.1 = .ok () ∧
    (triggerStretch lobbyEnvC2 0).1.2.stateBlob =
      some { lobbyStateC2 with phase := .stretch, endsAt := some (0 + 30000) } ∧
    (triggerStretch lobbyEnvC2 0).1.2 ≠ lobbyEnvC2 := by
  refine ⟨rfl, rfl, rfl, ?_⟩
  intro h
  have h2 := congrArg ServerEnv.stateBlob h
  simp [triggerStretch, lobbyEnvC2, lobbyStateC2] at h2

/-- C2 amended: the generic `transition` method enforces the adjacency table
lobby→question, question→reveal, reveal→{question, stretch, postgame},
stretch→question, postgame terminal, with no transition back to lobby,
failing `StateConflict` (state unchanged) otherwise; `startMatch` and
`revealAnswer` likewise guard their source phases and leave every store
untouched on the conflict; but `triggerStretch` bypasses the table and
succeeds from any phase whatsoever. -/
theorem transition_table_enforced_except_triggerStretch :
    (VALID_TRANSITIONS .lobby = [.question] ∧
     VALID_TRANSITIONS .question = [.reveal] ∧
     VALID_TRANSITIONS .reveal = [.question, .stretch, .postgame] ∧
     VALID_TRANSITIONS .stretch = [.question] ∧
     VALID_TRANSITIONS .postgame = [] ∧
     ∀ p, (VALID_TRANSITIONS p).contains .lobby = false) ∧
    (∀ (s : MatchState) (p : MatchPhase),
      (∃ s', transition (some s) p = .ok s') ↔
        (VALID_TRANSITIONS s.phase).contains p = true) ∧
    (∀ (s : MatchState) (p : MatchPhase),
      (VALID_TRANSITIONS s.phase).contains p = false →
        transition (some s) p = .error .stateConflict) ∧
    (∀ (env : ServerEnv) (now : Rat) (s : MatchState),
      env.stateBlob = some s → s.phase ≠ .lobby →
        startMatch env now = (.error .stateConflict, env)) ∧
    (∀ (env : ServerEnv) (s : MatchState),
      env.stateBlob = some s → s.phase ≠ .question →
        revealAnswer env = (.error .stateConflict, env)) ∧
    (∀ (env : ServerEnv) (now : Rat) (s : MatchState),
      env.stateBlob = some s → (triggerStretch env now).1.1 = .ok ()) := by
  refine ⟨⟨rfl, rfl, rfl, rfl, rfl, fun p => by cases p <;> rfl⟩, ?_, ?_, ?_, ?_, ?_⟩
  · intro s p
    by_cases hm : p ∈ VALID_TRANSITIONS s.phase
    · simp [transition, hm]
    · simp [transition, hm]
  · intro s p hc
    have hm : p ∉ VALID_TRANSITIONS s.phase := by simpa using hc
    simp [transition, hm]
  · intro env now s hs hphase
    unfold startMatch
    rw [hs]
    have hb : (s.phase != MatchPhase.lobby) = true := bne_iff_ne.mpr hphase
    simp only [hb, if_true]
  · intro env s hs hphase
    unfold revealAnswer
    rw [hs]
    have hb : (s.phase != MatchPhase.question) = true := bne_iff_ne.mpr hphase
    simp only [hb, if_true]
  · intro env now s hs
    unfold triggerStretch
    rw [hs]

/-- Witness for the amended C2: `startMatch` on a question-phase state fails
with a state conflict and leaves the environment unchanged. -/
theorem transition_table_enforced_witness :
    startMatch { lobbyEnvC2 with
        stateBlob := some { lobbyStateC2 with phase := .question } } 0 =
      (.error .stateConflict,
        { lobbyEnvC2 with
          stateBlob := some { lobbyStateC2 with phase := .question } }) :=
  transition_table_enforced_except_triggerStretch.2.2.2.1
    { lobbyEnvC2 with stateBlob := some { lobbyStateC2 with phase := .question } }
    0 { lobbyStateC2 with phase := .question } rfl (by decide)

/-- A multiple-choice question with a single choice — rejected by
`validateQuestion`. -/
def invalidQuestionC6 : Question := .mc "Q" ["A"] 0 none none

/-- A lobby-status durable match row whose pack opens with
`invalidQuestionC6`. -/
def matchRecordC6 : MatchRecord :=
  { id := "m", status := .LOBBY, startedAt := none, endedAt := none,
    settings := ⟨20, false, false⟩,
    pack := [{ theme := "T", questions := [invalidQuestionC6] }] }

/-- The lobby-phase volatile state for the C6 counterexample. -/
def stateC6 : MatchState :=
  { phase := .lobby, inning := 0, questionIdx := 0, question := none,
    endsAt := none, lineScore := [], leaderboard := [] }

/-- The environment for the C6 counterexample. -/
def envC6 : ServerEnv :=
  { matchId := "m", stateBlob := some stateC6, matchDb := some matchRecordC6,
    ledger := [], cache := [], players := [] }

/-- C6 counterexample: starting a lobby match whose first question fails
validation signals `InvalidContent` and leaves the volatile state blob
untouched, but the durable match row has already been flipped to
`IN_PROGRESS` with `startedAt` set — the durable record is not byte-for-byte
unchanged. -/
theorem startMatch_invalidcontent_counterexample :
    (startMatch envC6 0).1 = .error .invalidContent ∧
    (startMatch envC6 0).2.stateBlob = envC6.stateBlob ∧
    (startMatch envC6 0).2.matchDb =
      some { matchRecordC6 with status := .IN_PROGRESS, startedAt := some 0 } ∧
    matchRecordC6.status = .LOBBY ∧ matchRecordC6.startedAt = none :=
  ⟨rfl, rfl, rfl, rfl, rfl⟩

/-- C6 amended: when `startMatch` aborts with `InvalidContent`, the volatile
state blob, ledger, cache and roster are unchanged, but the durable match
row has already been updated to `IN_PROGRESS` with `startedAt := now`; when
`nextQuestion` aborts with `InvalidContent`, the entire environment is
unchanged. -/
theorem invalidContent_leaves_volatile_state_unchanged :
    (∀ (env : ServerEnv) (now : Rat) (m : MatchRecord),
      env.matchDb = some m →
      (startMatch env now).1 = .error .invalidContent →
      (startMatch env now).2.stateBlob = env.stateBlob ∧
      (startMatch env now).2.ledger = env.ledger ∧
      (startMatch env now).2.cache = env.cache ∧
      (startMatch env now).2.players = env.players ∧
      (startMatch env now).2.matchDb =
        some { m with status := .IN_PROGRESS, startedAt := some now }) ∧
    (∀ (env : ServerEnv) (now : Rat),
      (nextQuestion env now).1.1 = .error .invalidContent →
      (nextQuestion env now).1.2 = env) := by
  constructor
  · intro env now m hdb h
    unfold startMatch at h ⊢
    rw [hdb] at h ⊢
    cases hsb : env.stateBlob with
    | none =>
      rw [hsb] at h
      simp at h
    | some state =>
      rw [hsb] at h
      dsimp only at h ⊢
      by_cases hph : (state.phase != MatchPhase.lobby) = true
      · rw [if_pos hph] at h
        simp at h
      · rw [if_neg hph] at h ⊢
        cases hq : (m.pack.get? 0).bind fun inn => inn.questions.get? 0 with
        | none =>
          rw [hq] at h
          simp at h
        | some question =>
          rw [hq] at h
          dsimp only at h ⊢
          by_cases hv : (!(validateQuestion question).valid) = true
          · rw [if_pos hv]
            exact ⟨rfl, rfl, rfl, rfl, rfl⟩
          · rw [if_neg hv] at h
            simp at h
  · intro env now h
    unfold nextQuestion at h ⊢
    cases hsb : env.stateBlob with
    | none => rfl
    | some state =>
      rw [hsb] at h
      cases hdb : env.matchDb with
      | none => rfl
      | some m =>
        rw [hdb] at h
        dsimp only at h ⊢
        cases hin : m.pack.get? state.inning with
        | none => rfl
        | some inn =>
          rw [hin] at h
          dsimp only at h ⊢
          by_cases hx : state.questionIdx + 1 ≥ inn.questions.length
          · rw [if_pos hx] at h ⊢
            by_cases hl : state.inning + 1 ≥ m.pack.length
            · rw [if_pos hl] at h
              unfold endMatch at h
              rw [hsb, hdb] at h
              simp at h
            · rw [if_neg hl] at h ⊢
              by_cases h6 : (state.inning == 6) = true
              · rw [if_pos h6] at h
                unfold triggerStretch at h
                rw [hsb] at h
                simp at h
              · rw [if_neg h6] at h ⊢
                unfold nextQuestionShow at h ⊢
                cases hq : (m.pack.get? (state.inning + 1)).bind
                    fun inn => inn.questions.get? 0 with
                | none => rfl
                | some question =>
                  rw [hq] at h
                  dsimp only at h ⊢
                  by_cases hv : (!(validateQuestion question).valid) = true
                  · rw [if_pos hv]
                  · rw [if_neg hv] at h; simp at h
          · rw [if_neg hx] at h ⊢
            unfold nextQuestionShow at h ⊢
            cases hq : (m.pack.get? state.inning).bind
                fun inn => inn.questions.get? (state.questionIdx + 1) with
            | none => rfl
            | some question =>
              rw [hq] at h
              dsimp only at h ⊢
              by_cases hv : (!(validateQuestion question).valid) = true
              · rw [if_pos hv]
              · rw [if_neg hv] at h; simp at h

/-- Witness for the amended C6 on the concrete invalid-first-question
environment. -/
theorem invalidContent_leaves_volatile_state_unchanged_witness :
    (startMatch envC6 0).2.stateBlob = envC6.stateBlob ∧
    (startMatch envC6 0).2.ledger = envC6.ledger ∧
    (startMatch envC6 0).2.cache = envC6.cache ∧
    (startMatch envC6 0).2.players = envC6.players ∧
    (startMatch envC6 0).2.matchDb =
      some { matchRecordC6 with status := .IN_PROGRESS, startedAt := some 0 } :=
  invalidContent_leaves_volatile_state_unchanged.1 envC6 0 matchRecordC6 rfl rfl

/-- A connected player of match `m`, used for the C7 scenario. -/
def playerC7 : MatchPlayerRow :=
  { id := "p1", matchId := "m", nickname := "Ann", avatar := none, leftAt := none }

/-- The durable match row for the C7 scenario (two questions in inning 0). -/
def matchRecordC7 : MatchRecord :=
  { id := "m", status := .IN_PROGRESS, startedAt := some 0, endedAt := none,
    settings := ⟨20, false, false⟩,
    pack := [{ theme := "T",
               questions := [.mc "Q" ["A", "B"] 0 none none,
                             .mc "Q2" ["A", "B"] 1 none none] }] }

/-- A volatile state in `reveal` phase for question `(0, 0)` — the reveal for
`m-0-0` has already been triggered. -/
def stateC7 : MatchState :=
  { phase := .reveal, inning := 0, questionIdx := 0,
    question := some (formatQuestion "m" (.mc "Q" ["A", "B"] 0 none none) 0 0 20),
    endsAt := none, lineScore := [0], leaderboard := [] }

/-- The environment for the C7 counterexample. -/
def envC7 : ServerEnv :=
  { matchId := "m", stateBlob := some stateC7, matchDb := some matchRecordC7,
    ledger := [], cache := [], players := [playerC7] }

/-- C7 counterexample: the match is in `reveal` phase for question `m-0-0`
(reveal already triggered), yet a late submission for that same question is
accepted — the handler returns success and persists an Answer row instead of
failing `NotFound`. -/
theorem answerSubmit_accepts_after_reveal :
    envC7.stateBlob = some stateC7 ∧ stateC7.phase = .reveal ∧
    answerSubmitHandler envC7 (some "p1") "m" "m-0-0" "A" 100 =
      .ok ({ isCorrect := true, correctAnswer := some (.str "A"),
             runsAwarded := 1, bonusAwarded := false, answerMs := 100 },
           [{ id := 0, matchId := "m", playerId := "p1", inningIdx := 0,
              questionIdx := 0, choice := "A", isCorrect := true,
              answerMs := 100, bonusAwarded := false }],
           [{ matchId := "m", inningIdx := 0, questionIdx := 0, playerId := "p1",
              choice := "A", isCorrect := true, runsAwarded := 1,
              bonusAwarded := false, answerMs := 100 }]) :=
  ⟨rfl, rfl, rfl⟩

/-- C7 amended: the `answer:submit` handler rejects a submission with the
question-not-found error only when the parsed indices name no question of the
pack; it never consults the volatile match state, so any submission for an
existing pack question from a valid player is accepted (and an Answer row
created) regardless of the phase or question the match is currently showing —
including after that question's reveal. -/
theorem answerSubmit_ignores_current_question :
    (∀ (env : ServerEnv) (blob : Option MatchState) (authPlayerId : Option String)
      (matchId questionId choice : String) (lat : Rat),
      answerSubmitHandler { env with stateBlob := blob } authPlayerId matchId
          questionId choice lat =
        answerSubmitHandler env authPlayerId matchId questionId choice lat) ∧
    (∀ (env : ServerEnv) (playerId : String) (p : MatchPlayerRow)
      (m : MatchRecord) (i q : Nat) (question : Question)
      (matchId questionId choice : String) (lat : Rat),
      env.players.find? (fun pl => pl.id == playerId) = some p →
      (p.matchId != matchId) = false →
      env.matchDb = some m →
      parseQuestionId questionId = some (i, q) →
      ((m.pack.get? i).bind fun inn => inn.questions.get? q) = some question →
      hasAnswerKey env.ledger matchId playerId i q = false →
      answerSubmitHandler env (some playerId) matchId questionId choice lat =
        .ok ({ isCorrect := isAnswerCorrect question choice
               correctAnswer := getCorrectAnswer question
               runsAwarded := (calculateRuns (isAnswerCorrect question choice)
                 lat m.settings (isGrandSlam env.ledger matchId i q)).runs
               bonusAwarded := (calculateRuns (isAnswerCorrect question choice)
                 lat m.settings (isGrandSlam env.ledger matchId i q)).bonusAwarded
               answerMs := lat },
             env.ledger ++
              [{ id := env.ledger.length
                 matchId := matchId
                 playerId := playerId
                 inningIdx := i
                 questionIdx := q
                 choice := choice
                 isCorrect := isAnswerCorrect question choice
                 answerMs := lat
                 bonusAwarded := (calculateRuns (isAnswerCorrect question choice)
                   lat m.settings (isGrandSlam env.ledger matchId i q)).bonusAwarded }],
             env.cache ++
              [{ matchId := matchId
                 inningIdx := i
                 questionIdx := q
                 playerId := playerId
                 choice := choice
                 isCorrect := isAnswerCorrect question choice
                 runsAwarded := (calculateRuns (isAnswerCorrect question choice)
                   lat m.settings (isGrandSlam env.ledger matchId i q)).runs
                 bonusAwarded := (calculateRuns (isAnswerCorrect question choice)
                   lat m.settings (isGrandSlam env.ledger matchId i q)).bonusAwarded
                 answerMs := lat }])) := by
  constructor
  · intro env blob authPlayerId matchId questionId choice lat
    rfl
  · intro env playerId p m i q question matchId questionId choice lat
      hfind hpm hdb hp hq hkey
    unfold answerSubmitHandler
    dsimp only
    rw [hfind]
    dsimp only
    rw [hpm]
    simp only [Bool.false_eq_true, if_false]
    rw [hdb]
    dsimp only
    rw [hp, Option.some_bind]
    dsimp only
    rw [hq]
    dsimp only
    rw [submitAnswer_eval (i := i) (q := q) hp hkey]

/-- Witness for the amended C7 on the concrete post-reveal environment. -/
theorem answerSubmit_ignores_current_question_witness :
    answerSubmitHandler envC7 (some "p1") "m" "m-0-0" "A" 100 =
      .ok ({ isCorrect := isAnswerCorrect (.mc "Q" ["A", "B"] 0 none none) "A"
             correctAnswer := getCorrectAnswer (.mc "Q" ["A", "B"] 0 none none)
             runsAwarded := (calculateRuns
               (isAnswerCorrect (.mc "Q" ["A", "B"] 0 none none) "A") 100
               matchRecordC7.settings (isGrandSlam envC7.ledger "m" 0 0)).runs
             bonusAwarded := (calculateRuns
               (isAnswerCorrect (.mc "Q" ["A", "B"] 0 none none) "A") 100
               matchRecordC7.settings (isGrandSlam envC7.ledger "m" 0 0)).bonusAwarded
             answerMs := 100 },
           envC7.ledger ++
            [{ id := envC7.ledger.length
               matchId := "m"
               playerId := "p1"
               inningIdx := 0
               questionIdx := 0
               choice := "A"
               isCorrect := isAnswerCorrect (.mc "Q" ["A", "B"] 0 none none) "A"
               answerMs := 100
               bonusAwarded := (calculateRuns
                 (isAnswerCorrect (.mc "Q" ["A", "B"] 0 none none) "A") 100
                 matchRecordC7.settings (isGrandSlam envC7.ledger "m" 0 0)).bonusAwarded }],
           envC7.cache ++
            [{ matchId := "m"
               inningIdx := 0
               questionIdx := 0
               playerId := "p1"
               choice := "A"
               isCorrect := isAnswerCorrect (.mc "Q" ["A", "B"] 0 none none) "A"
               runsAwarded := (calculateRuns
                 (isAnswerCorrect (.mc "Q" ["A", "B"] 0 none none) "A") 100
                 matchRecordC7.settings (isGrandSlam envC7.ledger "m" 0 0)).runs
               bonusAwarded := (calculateRuns
                 (isAnswerCorrect (.mc "Q" ["A", "B"] 0 none none) "A") 100
                 matchRecordC7.settings (isGrandSlam envC7.ledger "m" 0 0)).bonusAwarded
               answerMs := 100 }]) :=
  answerSubmit_ignores_current_question.2 envC7 "p1" playerC7 matchRecordC7
    0 0 (.mc "Q" ["A", "B"] 0 none none) "m" "m-0-0" "A" 100
    rfl rfl rfl rfl rfl rfl

/-- A valid true/false question for the 9-inning C9 pack. -/
def questionC9 : Question := .tf "Q" true none none

/-- A 9-inning pack with one question per inning. -/
def packC9 : List Inning :=
  List.replicate 9 { theme := "T", questions := [questionC9] }

/-- The stored state exactly as `triggerStretch` saves it when invoked from
`nextQuestion` at the end of inning index 6: phase `stretch`, inning still 6,
question index at the inning's last question. -/
def stateC9 : MatchState :=
  { phase := .stretch, inning := 6, questionIdx := 0, question := none,
    endsAt := some 0, lineScore := List.replicate 9 0, leaderboard := [] }

/-- The durable match row for the C9 scenario. -/
def matchRecordC9 : MatchRecord :=
  { id := "m", status := .IN_PROGRESS, startedAt := some 0, endedAt := none,
    settings := ⟨20, false, false⟩, pack := packC9 }

/-- The environment at the moment the stretch timer fires. -/
def envC9 : ServerEnv :=
  { matchId := "m", stateBlob := some stateC9, matchDb := some matchRecordC9,
    ledger := [], cache := [], players := [] }

/-- The stored state of a completed match (as `endMatch` leaves it). -/
def stateC9post : MatchState :=
  { phase := .postgame, inning := 8, questionIdx := 0, question := none,
    endsAt := none, lineScore := List.replicate 9 0, leaderboard := [] }

/-- The durable row of the completed match, `endedAt` 100. -/
def matchRecordC9post : MatchRecord :=
  { matchRecordC9 with status := .COMPLETED, endedAt := some 100 }

/-- The environment of the completed match when the stray timer fires. -/
def envC9post : ServerEnv :=
  { matchId := "m", stateBlob := some stateC9post,
    matchDb := some matchRecordC9post, ledger := [], cache := [], players := [] }

/-- What the callback actually writes in the stretch scenario: the same
stretch state with a fresh 30-second deadline. -/
def stretchAgainStateC9 : MatchState :=
  { stateC9 with phase := .stretch, endsAt := some (0 + 30000) }

/-- What the stray callback writes to the durable row of the completed
match: `endedAt` bumped to the new firing time. -/
def reEndedRecordC9 : MatchRecord :=
  { matchRecordC9post with status := .COMPLETED, endedAt := some 200 }

/-- C9: evaluating the stretch timer callback at its failing inputs. The
callback's `this.state.inning = 7` assignment is discarded by
`nextQuestion`'s `loadState()`, so (first conjunct) fired on the state
`triggerStretch` saved — still in `stretch` phase, inning 6 — the callback
finds inning 6 exhausted and re-enters `triggerStretch`: the match stays in
`stretch` with a fresh 30-second deadline and yet another timer scheduled,
never advancing to inning 7. And (last conjuncts) fired after the match has
completed (phase `postgame`), the callback does not no-op: it re-runs
`endMatch`, rewriting the stored blob and bumping the durable `endedAt`
from 100 to the new time 200. -/
theorem stretchCallback_failing_inputs :
    (stateC9.phase = .stretch ∧ stateC9.inning = 6) ∧
    stretchCallback envC9 0 =
      ((.ok (), { envC9 with stateBlob := some stretchAgainStateC9 }), true) ∧
    (stateC9post.phase = .postgame ∧
      stretchCallback envC9post 200 =
        ((.ok (), { envC9post with matchDb := some reEndedRecordC9 }), false)) ∧
    (stretchCallback envC9post 200).1.2 ≠ envC9post := by
  refine ⟨⟨rfl, rfl⟩, rfl, ⟨rfl, rfl⟩, ?_⟩
  intro h
  have h2 : (some (some (200 : Rat)) : Option (Option Rat)) = some (some 100) :=
    congrArg (fun e => e.matchDb.map MatchRecord.endedAt) h
  simp only [Option.some.injEq] at h2
  exact absurd h2 (by norm_num)

lemma foldl_add_eq_sum {α M : Type _} [AddCommMonoid M] (f : α → M)
    (l : List α) (init : M) :
    l.foldl (fun s a => s + f a) init = init + (l.map f).sum := by
  induction l generalizing init with
  | nil => simp
  | cons x xs ih => simp [ih, add_assoc]

lemma leaderboardLE_trans (a b c : PlayerScore)
    (hab : leaderboardLE a b = true) (hbc : leaderboardLE b c = true) :
    leaderboardLE a c = true := by
  simp only [leaderboardLE, Bool.or_eq_true, Bool.and_eq_true,
    decide_eq_true_eq, beq_iff_eq] at hab hbc ⊢
  rcases hab with h1 | ⟨h1, h2⟩ <;> rcases hbc with h3 | ⟨h3, h4⟩
  · exact Or.inl (h3.trans h1)
  · exact Or.inl (h3 ▸ h1)
  · exact Or.inl (h1 ▸ h3)
  · exact Or.inr ⟨h1.trans h3, le_trans h2 h4⟩

lemma leaderboardLE_total (a b : PlayerScore) :
    (leaderboardLE a b || leaderboardLE b a) = true := by
  simp only [leaderboardLE, Bool.or_eq_true, Bool.and_eq_true,
    decide_eq_true_eq, beq_iff_eq]
  rcases lt_trichotomy a.runs b.runs with h | h | h
  · exact Or.inr (Or.inl h)
  · rcases le_total a.totalTimeMs b.totalTimeMs with ht | ht
    · exact Or.inl (Or.inr ⟨h, ht⟩)
    · exact Or.inr (Or.inr ⟨h.symm, ht⟩)
  · exact Or.inl (Or.inl h)

lemma leaderboardLE_implies_order {a b : PlayerScore}
    (h : leaderboardLE a b = true) : leaderboardOrder a b := by
  simp only [leaderboardLE, Bool.or_eq_true, Bool.and_eq_true,
    decide_eq_true_eq, beq_iff_eq] at h
  exact h

/-- C8: the leaderboard recomputation rebuilds each non-left player's score
from scratch from that player's ledger rows with
`runs = Σ(correct ? (bonus ? 4 : 1) : 0)`, the correct and total counts, and
`totalTimeMs = Σ answerMs`; and `updateLeaderboard` stores a permutation of
the given scores sorted by descending `runs` with ties broken by ascending
`totalTimeMs` — a deterministic order for equal inputs, the sort being a pure
stable function of its argument. -/
theorem leaderboard_recompute_and_sort :
    (∀ (players : List MatchPlayerRow) (ledger : List AnswerRow) (matchId : String),
      computePlayerScores players ledger matchId =
        (players.filter fun p => p.matchId == matchId && p.leftAt == none).map
          fun p =>
            { playerId := p.id
              nickname := p.nickname
              avatar := p.avatar
              runs := runsOfAnswersSpec
                (ledger.filter fun a => a.matchId == matchId && a.playerId == p.id)
              correct := (((ledger.filter fun a =>
                a.matchId == matchId && a.playerId == p.id).filter
                  (·.isCorrect)).length : Int)
              total := ((ledger.filter fun a =>
                a.matchId == matchId && a.playerId == p.id).length : Int)
              totalTimeMs := totalTimeOfAnswersSpec
                (ledger.filter fun a => a.matchId == matchId && a.playerId == p.id) }) ∧
    (∀ (state : MatchState) (players : List PlayerScore),
      ((updateLeaderboard state players).leaderboard).Perm players ∧
      ((updateLeaderboard state players).leaderboard).Sorted leaderboardOrder) := by
  constructor
  · intro players ledger matchId
    unfold computePlayerScores
    refine List.map_congr_left ?_
    intro p _
    have hfun : (fun (sum : Int) (a : AnswerRow) =>
        if !a.isCorrect then sum else sum + (if a.bonusAwarded then 4 else 1)) =
        fun (sum : Int) (a : AnswerRow) =>
          sum + (if a.isCorrect then (if a.bonusAwarded then 4 else 1) else 0) := by
      funext sum a
      cases ha : a.isCorrect <;> simp [ha]
    dsimp only
    rw [hfun, foldl_add_eq_sum, foldl_add_eq_sum, zero_add, zero_add]
    rfl
  · intro state players
    constructor
    · exact List.mergeSort_perm players leaderboardLE
    · exact (List.sorted_mergeSort leaderboardLE_trans leaderboardLE_total
        players).imp leaderboardLE_implies_order

lemma countAnswersForKey_eq_zero {ledger : List AnswerRow} {m p : String}
    {i q : Nat} (hk : hasAnswerKey ledger m p i q = false) :
    countAnswersForKey ledger m p i q = 0 := by
  unfold countAnswersForKey
  rw [List.length_eq_zero, List.filter_eq_nil_iff]
  intro a ha hcond
  rw [hasAnswerKey_false_iff] at hk
  simp only [Bool.and_eq_true, beq_iff_eq] at hcond
  exact hk a ha ⟨hcond.1.1.1, hcond.1.1.2, hcond.1.2, hcond.2⟩

lemma processSubmissions_all_duplicates (question : Question)
    (settings : MatchSettings) :
    ∀ (rest : List SubmitAnswerRequest) (ledger : List AnswerRow)
      (cache : List CacheEntry) (m p qid : String) (i q : Nat),
      (∀ r ∈ rest, r.matchId = m ∧ r.playerId = p ∧ r.questionId = qid) →
      parseQuestionId qid = some (i, q) →
      hasAnswerKey ledger m p i q = true →
      processSubmissions question settings ledger cache rest =
        (rest.map fun _ => .error .duplicateSubmission, ledger, cache) := by
  intro rest
  induction rest with
  | nil => intro ledger cache m p qid i q _ _ _; rfl
  | cons r rs ih =>
    intro ledger cache m p qid i q hall hp hk
    obtain ⟨hm, hpp, hqid⟩ := hall r (List.mem_cons_self r rs)
    have hp0 : parseQuestionId r.questionId = some (i, q) := by
      rw [hqid]; exact hp
    have hk0 : hasAnswerKey ledger r.matchId r.playerId i q = true := by
      rw [hm, hpp]; exact hk
    unfold processSubmissions
    rw [submitAnswer_duplicate hp0 hk0]
    dsimp only
    rw [ih ledger cache m p qid i q (fun x hx => hall x (List.mem_cons_of_mem r hx)) hp hk]
    rfl

/-- C1: the ledger's unique insert enforces exactly-once answers. First, any
successful `submitAnswer` preserves the invariant that at most one row exists
per `(matchId, playerId, inningIdx, questionIdx)` tuple. Second, for any
serialization of N concurrent duplicate submissions of the same tuple against
a ledger not yet holding it, exactly the first call succeeds and persists one
row — the stored row carries the first request's data, never overwritten —
and every other call fails with the duplicate-submission error, leaving the
stores untouched; exactly one row for the tuple exists afterwards. -/
theorem answer_ledger_exactly_once :
    (∀ (ledger : List AnswerRow) (cache : List CacheEntry)
      (req : SubmitAnswerRequest) (question : Question) (settings : MatchSettings)
      (out : SubmitAnswerResult × List AnswerRow × List CacheEntry),
      exactlyOncePerKey ledger →
      submitAnswer ledger cache req question settings = .ok out →
      exactlyOncePerKey out.2.1) ∧
    (∀ (question : Question) (settings : MatchSettings) (ledger : List AnswerRow)
      (cache : List CacheEntry) (m p qid : String) (i q : Nat)
      (r₀ : SubmitAnswerRequest) (rest : List SubmitAnswerRequest),
      (∀ r ∈ r₀ :: rest, r.matchId = m ∧ r.playerId = p ∧ r.questionId = qid) →
      parseQuestionId qid = some (i, q) →
      hasAnswerKey ledger m p i q = false →
      processSubmissions question settings ledger cache (r₀ :: rest) =
        (.ok { isCorrect := isAnswerCorrect question r₀.choice
               correctAnswer := getCorrectAnswer question
               runsAwarded := (calculateRuns (isAnswerCorrect question r₀.choice)
                 r₀.clientLatencyMs settings (isGrandSlam ledger r₀.matchId i q)).runs
               bonusAwarded := (calculateRuns (isAnswerCorrect question r₀.choice)
                 r₀.clientLatencyMs settings (isGrandSlam ledger r₀.matchId i q)).bonusAwarded
               answerMs := r₀.clientLatencyMs } ::
            rest.map (fun _ => .error .duplicateSubmission),
         ledger ++
          [{ id := ledger.length
             matchId := r₀.matchId
             playerId := r₀.playerId
             inningIdx := i
             questionIdx := q
             choice := r₀.choice
             isCorrect := isAnswerCorrect question r₀.choice
             answerMs := r₀.clientLatencyMs
             bonusAwarded := (calculateRuns (isAnswerCorrect question r₀.choice)
               r₀.clientLatencyMs settings (isGrandSlam ledger r₀.matchId i q)).bonusAwarded }],
         cache ++
          [{ matchId := r₀.matchId
             inningIdx := i
             questionIdx := q
             playerId := r₀.playerId
             choice := r₀.choice
             isCorrect := isAnswerCorrect question r₀.choice
             runsAwarded := (calculateRuns (isAnswerCorrect question r₀.choice)
               r₀.clientLatencyMs settings (isGrandSlam ledger r₀.matchId i q)).runs
             bonusAwarded := (calculateRuns (isAnswerCorrect question r₀.choice)
               r₀.clientLatencyMs settings (isGrandSlam ledger r₀.matchId i q)).bonusAwarded
             answerMs := r₀.clientLatencyMs }]) ∧
      countAnswersForKey (ledger ++
          [{ id := ledger.length
             matchId := r₀.matchId
             playerId := r₀.playerId
             inningIdx := i
             questionIdx := q
             choice := r₀.choice
             isCorrect := isAnswerCorrect question r₀.choice
             answerMs := r₀.clientLatencyMs
             bonusAwarded := (calculateRuns (isAnswerCorrect question r₀.choice)
               r₀.clientLatencyMs settings (isGrandSlam ledger r₀.matchId i q)).bonusAwarded }])
        m p i q = 1) := by
  constructor
  · intro ledger cache req question settings out hu h
    obtain ⟨i, q, hp, hk, _, hl, _⟩ := submitAnswer_ok_elim h
    rw [hl]
    unfold exactlyOncePerKey at hu ⊢
    rw [List.map_append, List.nodup_append]
    refine ⟨hu, List.nodup_singleton _, ?_⟩
    intro x hx hx2
    simp only [List.map_cons, List.map_nil, List.mem_singleton] at hx2
    subst hx2
    rw [List.mem_map] at hx
    obtain ⟨a, ha, hkey⟩ := hx
    rw [hasAnswerKey_false_iff] at hk
    unfold answerKey at hkey
    simp only [Prod.mk.injEq] at hkey
    exact hk a ha ⟨hkey.1, hkey.2.1, hkey.2.2.1, hkey.2.2.2⟩
  · intro question settings ledger cache m p qid i q r₀ rest hall hp hk
    obtain ⟨hm, hpp, hqid⟩ := hall r₀ (List.mem_cons_self r₀ rest)
    have hp0 : parseQuestionId r₀.questionId = some (i, q) := by
      rw [hqid]; exact hp
    have hk0 : hasAnswerKey ledger r₀.matchId r₀.playerId i q = false := by
      rw [hm, hpp]; exact hk
    have hk1 : hasAnswerKey (ledger ++
        [{ id := ledger.length
           matchId := r₀.matchId
           playerId := r₀.playerId
           inningIdx := i
           questionIdx := q
           choice := r₀.choice
           isCorrect := isAnswerCorrect question r₀.choice
           answerMs := r₀.clientLatencyMs
           bonusAwarded := (calculateRuns (isAnswerCorrect question r₀.choice)
             r₀.clientLatencyMs settings (isGrandSlam ledger r₀.matchId i q)).bonusAwarded }])
        m p i q = true := by
      unfold hasAnswerKey
      rw [List.any_append]
      simp [hm, hpp]
    constructor
    · unfold processSubmissions
      rw [submitAnswer_eval hp0 hk0]
      dsimp only
      rw [processSubmissions_all_duplicates question settings rest _ _ m p qid i q
        (fun x hx => hall x (List.mem_cons_of_mem r₀ hx)) hp hk1]
    · unfold countAnswersForKey
      rw [List.filter_append, List.length_append]
      have h0 : countAnswersForKey ledger m p i q = 0 := countAnswersForKey_eq_zero hk
      unfold countAnswersForKey at h0
      rw [h0]
      simp [hm, hpp]

/-- Witness for C1: three concurrent identical submissions serialized against
an empty ledger — the first persists, the remaining two fail with the
duplicate-submission error, and exactly one row for the tuple exists. -/
theorem answer_ledger_exactly_once_witness :
    (processSubmissions (.mc "Q" ["A", "B"] 0 none none) ⟨20, false, false⟩ [] []
        [⟨"m", "p", "m-0-0", "A", 100⟩, ⟨"m", "p", "m-0-0", "A", 100⟩,
         ⟨"m", "p", "m-0-0", "A", 100⟩] =
      (.ok { isCorrect := isAnswerCorrect (.mc "Q" ["A", "B"] 0 none none)
               (⟨"m", "p", "m-0-0", "A", 100⟩ : SubmitAnswerRequest).choice
             correctAnswer := getCorrectAnswer (.mc "Q" ["A", "B"] 0 none none)
             runsAwarded := (calculateRuns (isAnswerCorrect
                 (.mc "Q" ["A", "B"] 0 none none)
                 (⟨"m", "p", "m-0-0", "A", 100⟩ : SubmitAnswerRequest).choice)
               (⟨"m", "p", "m-0-0", "A", 100⟩ : SubmitAnswerRequest).clientLatencyMs
               ⟨20, false, false⟩
               (isGrandSlam []
                 (⟨"m", "p", "m-0-0", "A", 100⟩ : SubmitAnswerRequest).matchId 0 0)).runs
             bonusAwarded := (calculateRuns (isAnswerCorrect
                 (.mc "Q" ["A", "B"] 0 none none)
                 (⟨"m", "p", "m-0-0", "A", 100⟩ : SubmitAnswerRequest).choice)
               (⟨"m", "p", "m-0-0", "A", 100⟩ : SubmitAnswerRequest).clientLatencyMs
               ⟨20, false, false⟩
               (isGrandSlam []
                 (⟨"m", "p", "m-0-0", "A", 100⟩ : SubmitAnswerRequest).matchId 0 0)).bonusAwarded
             answerMs :=
               (⟨"m", "p", "m-0-0", "A", 100⟩ : SubmitAnswerRequest).clientLatencyMs } ::
          [⟨"m", "p", "m-0-0", "A", 100⟩,
           (⟨"m", "p", "m-0-0", "A", 100⟩ : SubmitAnswerRequest)].map
            (fun _ => .error .duplicateSubmission),
       [] ++
        [{ id := List.length ([] : List AnswerRow)
           matchId := (⟨"m", "p", "m-0-0", "A", 100⟩ : SubmitAnswerRequest).matchId
           playerId := (⟨"m", "p", "m-0-0", "A", 100⟩ : SubmitAnswerRequest).playerId
           inningIdx := 0
           questionIdx := 0
           choice := (⟨"m", "p", "m-0-0", "A", 100⟩ : SubmitAnswerRequest).choice
           isCorrect := isAnswerCorrect (.mc "Q" ["A", "B"] 0 none none)
             (⟨"m", "p", "m-0-0", "A", 100⟩ : SubmitAnswerRequest).choice
           answerMs := (⟨"m", "p", "m-0-0", "A", 100⟩ : SubmitAnswerRequest).clientLatencyMs
           bonusAwarded := (calculateRuns (isAnswerCorrect
               (.mc "Q" ["A", "B"] 0 none none)
               (⟨"m", "p", "m-0-0", "A", 100⟩ : SubmitAnswerRequest).choice)
             (⟨"m", "p", "m-0-0", "A", 100⟩ : SubmitAnswerRequest).clientLatencyMs
             ⟨20, false, false⟩
             (isGrandSlam []
               (⟨"m", "p", "m-0-0", "A", 100⟩ : SubmitAnswerRequest).matchId 0 0)).bonusAwarded }],
       [] ++
        [{ matchId := (⟨"m", "p", "m-0-0", "A", 100⟩ : SubmitAnswerRequest).matchId
           inningIdx := 0
           questionIdx := 0
           playerId := (⟨"m", "p", "m-0-0", "A", 100⟩ : SubmitAnswerRequest).playerId
           choice := (⟨"m", "p", "m-0-0", "A", 100⟩ : SubmitAnswerRequest).choice
           isCorrect := isAnswerCorrect (.mc "Q" ["A", "B"] 0 none none)
             (⟨"m", "p", "m-0-0", "A", 100⟩ : SubmitAnswerRequest).choice
           runsAwarded := (calculateRuns (isAnswerCorrect
               (.mc "Q" ["A", "B"] 0 none none)
               (⟨"m", "p", "m-0-0", "A", 100⟩ : SubmitAnswerRequest).choice)
             (⟨"m", "p", "m-0-0", "A", 100⟩ : SubmitAnswerRequest).clientLatencyMs
             ⟨20, false, false⟩
             (isGrandSlam []
               (⟨"m", "p", "m-0-0", "A", 100⟩ : SubmitAnswerRequest).matchId 0 0)).runs
           bonusAwarded := (calculateRuns (isAnswerCorrect
               (.mc "Q" ["A", "B"] 0 none none)
               (⟨"m", "p", "m-0-0", "A", 100⟩ : SubmitAnswerRequest).choice)
             (⟨"m", "p", "m-0-0", "A", 100⟩ : SubmitAnswerRequest).clientLatencyMs
             ⟨20, false, false⟩
             (isGrandSlam []
               (⟨"m", "p", "m-0-0", "A", 100⟩ : SubmitAnswerRequest).matchId 0 0)).bonusAwarded
           answerMs :=
             (⟨"m", "p", "m-0-0", "A", 100⟩ : SubmitAnswerRequest).clientLatencyMs }])) ∧
    countAnswersForKey ([] ++
        [{ id := List.length ([] : List AnswerRow)
           matchId := (⟨"m", "p", "m-0-0", "A", 100⟩ : SubmitAnswerRequest).matchId
           playerId := (⟨"m", "p", "m-0-0", "A", 100⟩ : SubmitAnswerRequest).playerId
           inningIdx := 0
           questionIdx := 0
           choice := (⟨"m", "p", "m-0-0", "A", 100⟩ : SubmitAnswerRequest).choice
           isCorrect := isAnswerCorrect (.mc "Q" ["A", "B"] 0 none none)
             (⟨"m", "p", "m-0-0", "A", 100⟩ : SubmitAnswerRequest).choice
           answerMs := (⟨"m", "p", "m-0-0", "A", 100⟩ : SubmitAnswerRequest).clientLatencyMs
           bonusAwarded := (calculateRuns (isAnswerCorrect
               (.mc "Q" ["A", "B"] 0 none none)
               (⟨"m", "p", "m-0-0", "A", 100⟩ : SubmitAnswerRequest).choice)
             (⟨"m", "p", "m-0-0", "A", 100⟩ : SubmitAnswerRequest).clientLatencyMs
             ⟨20, false, false⟩
             (isGrandSlam []
               (⟨"m", "p", "m-0-0", "A", 100⟩ : SubmitAnswerRequest).matchId 0 0)).bonusAwarded }])
      "m" "p" 0 0 = 1 :=
  answer_ledger_exactly_once.2 (.mc "Q" ["A", "B"] 0 none none) ⟨20, false, false⟩
    [] [] "m" "p" "m-0-0" 0 0 ⟨"m", "p", "m-0-0", "A", 100⟩
    [⟨"m", "p", "m-0-0", "A", 100⟩, ⟨"m", "p", "m-0-0", "A", 100⟩]
    (by decide)
    rfl rfl

lemma closestStep_skip (cv : Rat) (acc : ClosestScan) (a : AnswerRow)
    (hpa : parseFloatQ a.choice = none) : closestStep cv acc a = acc := by
  unfold closestStep
  rw [hpa]

lemma closestStep_first (cv : Rat) (acc : ClosestScan) (a : AnswerRow) (v : Rat)
    (hpa : parseFloatQ a.choice = some v) (hmin : acc.minDistance = none) :
    closestStep cv acc a = ⟨some |cv - v|, [a.id]⟩ := by
  unfold closestStep
  rw [hpa]
  dsimp only
  rw [hmin]

lemma closestStep_lt (cv : Rat) (acc : ClosestScan) (a : AnswerRow) (v m₀ : Rat)
    (hpa : parseFloatQ a.choice = some v) (hmin : acc.minDistance = some m₀)
    (h : |cv - v| < m₀) : closestStep cv acc a = ⟨some |cv - v|, [a.id]⟩ := by
  unfold closestStep
  rw [hpa]
  dsimp only
  rw [hmin]
  dsimp only
  rw [if_pos h]

lemma closestStep_tie (cv : Rat) (acc : ClosestScan) (a : AnswerRow) (v m₀ : Rat)
    (hpa : parseFloatQ a.choice = some v) (hmin : acc.minDistance = some m₀)
    (h : |cv - v| = m₀) :
    closestStep cv acc a = ⟨some m₀, acc.closestAnswerIds ++ [a.id]⟩ := by
  unfold closestStep
  rw [hpa]
  dsimp only
  rw [hmin]
  dsimp only
  rw [if_neg (by rw [h]; exact lt_irrefl m₀), if_pos (beq_iff_eq.mpr h)]

lemma closestStep_far (cv : Rat) (acc : ClosestScan) (a : AnswerRow) (v m₀ : Rat)
    (hpa : parseFloatQ a.choice = some v) (hmin : acc.minDistance = some m₀)
    (h : m₀ < |cv - v|) : closestStep cv acc a = acc := by
  unfold closestStep
  rw [hpa]
  dsimp only
  rw [hmin]
  dsimp only
  rw [if_neg (not_lt_of_gt h), if_neg (by simp [beq_iff_eq]; exact ne_of_gt h)]

lemma parsedDistances_append_none (cv : Rat) (l : List AnswerRow) (a : AnswerRow)
    (hpa : parseFloatQ a.choice = none) :
    parsedDistances cv (l ++ [a]) = parsedDistances cv l := by
  unfold parsedDistances
  rw [List.filterMap_append]
  simp [hpa]

lemma parsedDistances_append_some (cv : Rat) (l : List AnswerRow) (a : AnswerRow)
    (v : Rat) (hpa : parseFloatQ a.choice = some v) :
    parsedDistances cv (l ++ [a]) = parsedDistances cv l ++ [(a.id, |cv - v|)] := by
  unfold parsedDistances
  rw [List.filterMap_append]
  simp [hpa]

lemma mem_parsedDistances {cv : Rat} {rows : List AnswerRow} {p : Nat × Rat} :
    p ∈ parsedDistances cv rows ↔
      ∃ b ∈ rows, ∃ w, parseFloatQ b.choice = some w ∧ p = (b.id, |cv - w|) := by
  unfold parsedDistances
  rw [List.mem_filterMap]
  constructor
  · rintro ⟨b, hb, hmap⟩
    cases hpb : parseFloatQ b.choice with
    | none => simp [hpb] at hmap
    | some w =>
      rw [hpb, Option.map_some'] at hmap
      exact ⟨b, hb, w, hpb, (Option.some.injEq .. ▸ hmap).symm⟩
  · rintro ⟨b, hb, w, hw, rfl⟩
    exact ⟨b, hb, by rw [hw]; rfl⟩

lemma closestScan_spec (cv : Rat) (l : List AnswerRow) :
    ((l.foldl (closestStep cv) ⟨none, []⟩).minDistance = none →
      parsedDistances cv l = [] ∧
      (l.foldl (closestStep cv) ⟨none, []⟩).closestAnswerIds = []) ∧
    (∀ m, (l.foldl (closestStep cv) ⟨none, []⟩).minDistance = some m →
      (∃ p ∈ parsedDistances cv l, p.2 = m) ∧
      (∀ p ∈ parsedDistances cv l, m ≤ p.2) ∧
      (l.foldl (closestStep cv) ⟨none, []⟩).closestAnswerIds =
        ((parsedDistances cv l).filter (fun p => p.2 == m)).map Prod.fst) := by
  induction l using List.reverseRecOn with
  | nil =>
    constructor
    · intro _
      exact ⟨rfl, rfl⟩
    · intro m hm
      simp at hm
  | append_singleton l a ih =>
    simp only [List.foldl_append, List.foldl_cons, List.foldl_nil]
    cases hpa : parseFloatQ a.choice with
    | none =>
      rw [closestStep_skip cv _ a hpa, parsedDistances_append_none cv l a hpa]
      exact ih
    | some v =>
      cases hmin : (l.foldl (closestStep cv) ⟨none, []⟩).minDistance with
      | none =>
        obtain ⟨hpl, hids⟩ := ih.1 hmin
        rw [closestStep_first cv _ a v hpa hmin,
          parsedDistances_append_some cv l a v hpa, hpl]
        constructor
        · intro h
          simp at h
        · intro m hm
          simp only [Option.some.injEq] at hm
          subst hm
          refine ⟨⟨(a.id, |cv - v|), by simp, rfl⟩, ?_, ?_⟩
          · intro p hp
            simp only [List.nil_append, List.mem_singleton] at hp
            subst hp
            exact le_refl _
          · simp
      | some m₀ =>
        obtain ⟨hex, hbound, hids⟩ := ih.2 m₀ hmin
        rw [parsedDistances_append_some cv l a v hpa]
        rcases lt_trichotomy (|cv - v|) m₀ with hlt | heq | hgt
        · rw [closestStep_lt cv _ a v m₀ hpa hmin hlt]
          constructor
          · intro h
            simp at h
          · intro m hm
            simp only [Option.some.injEq] at hm
            subst hm
            refine ⟨⟨(a.id, |cv - v|), by simp, rfl⟩, ?_, ?_⟩
            · intro p hp
              rw [List.mem_append] at hp
              rcases hp with hp | hp
              · exact le_of_lt (lt_of_lt_of_le hlt (hbound p hp))
              · simp only [List.mem_singleton] at hp
                subst hp
                exact le_refl _
            · rw [List.filter_append]
              have hnil : (parsedDistances cv l).filter
                  (fun p => p.2 == |cv - v|) = [] := by
                rw [List.filter_eq_nil_iff]
                intro p hp hcon
                rw [beq_iff_eq] at hcon
                exact absurd (hcon ▸ hbound p hp) (not_le_of_gt hlt)
              rw [hnil]
              simp
        · rw [closestStep_tie cv _ a v m₀ hpa hmin heq]
          constructor
          · intro h
            simp at h
          · intro m hm
            simp only [Option.some.injEq] at hm
            subst hm
            obtain ⟨p₀, hp₀, hp₀d⟩ := hex
            refine ⟨⟨p₀, List.mem_append_left _ hp₀, hp₀d⟩, ?_, ?_⟩
            · intro p hp
              rw [List.mem_append] at hp
              rcases hp with hp | hp
              · exact hbound p hp
              · simp only [List.mem_singleton] at hp
                subst hp
                exact ge_of_eq heq
            · rw [List.filter_append, hids]
              simp [heq]
        · rw [closestStep_far cv _ a v m₀ hpa hmin hgt]
          constructor
          · intro h
            rw [h] at hmin
            simp at hmin
          · intro m hm
            rw [hm] at hmin
            simp only [Option.some.injEq] at hmin
            subst hmin
            obtain ⟨p₀, hp₀, hp₀d⟩ := hex
            refine ⟨⟨p₀, List.mem_append_left _ hp₀, hp₀d⟩, ?_, ?_⟩
            · intro p hp
              rw [List.mem_append] at hp
              rcases hp with hp | hp
              · exact hbound p hp
              · simp only [List.mem_singleton] at hp
                subst hp
                exact le_of_lt hgt
            · rw [List.filter_append, hids]
              have hnil : ([(a.id, |cv - v|)].filter (fun p => p.2 == m)) = [] := by
                simp only [List.filter_eq_nil_iff, List.mem_singleton]
                rintro p rfl
                simp only [beq_iff_eq]
                exact ne_of_gt hgt
              rw [hnil]
              simp

lemma closest_winner_iff (cv : Rat) (rows : List AnswerRow)
    (hnd : (rows.map AnswerRow.id).Nodup) (a : AnswerRow) (ha : a ∈ rows) :
    (rows.foldl (closestStep cv) ⟨none, []⟩).closestAnswerIds.contains a.id = true ↔
      achievesMin cv rows a := by
  constructor
  · intro hc
    have hmem : a.id ∈ (rows.foldl (closestStep cv) ⟨none, []⟩).closestAnswerIds := by
      simpa using hc
    cases hmin : (rows.foldl (closestStep cv) ⟨none, []⟩).minDistance with
    | none =>
      obtain ⟨_, hids⟩ := (closestScan_spec cv rows).1 hmin
      rw [hids] at hmem
      simp at hmem
    | some m =>
      obtain ⟨_, hbound, hids⟩ := (closestScan_spec cv rows).2 m hmin
      rw [hids, List.mem_map] at hmem
      obtain ⟨p, hpf, hfst⟩ := hmem
      rw [List.mem_filter] at hpf
      obtain ⟨hpmem, hpd⟩ := hpf
      rw [mem_parsedDistances] at hpmem
      obtain ⟨b, hb, w, hw, rfl⟩ := hpmem
      have hba : b = a := List.inj_on_of_nodup_map hnd hb ha hfst
      subst hba
      refine ⟨w, hw, ?_⟩
      intro b' hb' w' hw'
      have hmem' : (b'.id, |cv - w'|) ∈ parsedDistances cv rows :=
        mem_parsedDistances.mpr ⟨b', hb', w', hw', rfl⟩
      have h2 := hbound _ hmem'
      rw [show |cv - w| = m from by simpa using hpd]
      exact h2
  · rintro ⟨v, hv, hminimal⟩
    have hpmem : (a.id, |cv - v|) ∈ parsedDistances cv rows :=
      mem_parsedDistances.mpr ⟨a, ha, v, hv, rfl⟩
    cases hmin : (rows.foldl (closestStep cv) ⟨none, []⟩).minDistance with
    | none =>
      obtain ⟨hpl, _⟩ := (closestScan_spec cv rows).1 hmin
      rw [hpl] at hpmem
      simp at hpmem
    | some m =>
      obtain ⟨hex, hbound, hids⟩ := (closestScan_spec cv rows).2 m hmin
      obtain ⟨p₀, hp₀, hp₀d⟩ := hex
      rw [mem_parsedDistances] at hp₀
      obtain ⟨b, hb, w, hw, rfl⟩ := hp₀
      have h1 : m ≤ |cv - v| := hbound _ hpmem
      have h2 : |cv - v| ≤ |cv - w| := hminimal b hb w hw
      have hm : |cv - v| = m := le_antisymm (hp₀d ▸ h2) h1
      have hgoal : a.id ∈
          ((parsedDistances cv rows).filter (fun p => p.2 == m)).map Prod.fst := by
        rw [List.mem_map]
        exact ⟨(a.id, |cv - v|),
          List.mem_filter.mpr ⟨hpmem, by simpa using hm⟩, rfl⟩
      rw [hids]
      simpa using hgoal

/-- C4 amended: at submission time a closest answer's correctness is always
provisionally false; at reveal, `handleClosestQuestion` amends exactly the
ledger rows whose choice parses as a number and achieves the minimum
`|correctValue − parsedChoice|` over the question's numeric submissions (ties
included) to correct with no bonus — via the cache-miss read path such rows
are reported with exactly 1 run — and every other row is untouched; however,
whenever the Redis answer cache holds any entry for the question (the normal
path, since `submitAnswer` populates it), the reveal payload's per-player
results are the cached pre-amendment values, not the amended ones. -/
theorem closest_reveal_amendment :
    (∀ (text : String) (cv : Rat) (mu cu : Option String) (ans : String),
      isAnswerCorrect (.closest text cv mu cu) ans = false) ∧
    (∀ (players : List MatchPlayerRow) (cache : List CacheEntry)
      (ledger : List AnswerRow) (matchId qid : String) (question : Question)
      (i q : Nat),
      parseQuestionId qid = some (i, q) →
      (cache.filter fun e => e.matchId == matchId && e.inningIdx == i &&
        e.questionIdx == q) ≠ [] →
      (generateRevealPayload players cache ledger matchId qid question).1.playerResults =
        (cache.filter fun e => e.matchId == matchId && e.inningIdx == i &&
          e.questionIdx == q).map fun e =>
            { playerId := e.playerId
              nickname := ((players.find? fun p => p.id == e.playerId).map
                (·.nickname)).getD "Unknown"
              isCorrect := e.isCorrect
              runsAwarded := e.runsAwarded }) ∧
    (∀ (players : List MatchPlayerRow) (ledger : List AnswerRow)
      (matchId : String) (i q : Nat) (e : QuestionAnswerView),
      e ∈ getQuestionAnswers players [] ledger matchId i q →
      e.isCorrect = true → e.bonusAwarded = false → e.runsAwarded = 1) ∧
    (∀ (ledger : List AnswerRow) (matchId : String) (i q : Nat) (cv : Rat),
      (ledger.map AnswerRow.id).Nodup →
      (∀ b ∈ ledger, questionKeyMatch matchId i q b = true → b.isCorrect = false) →
      ∀ (k : Nat) (a a' : AnswerRow),
        ledger.get? k = some a →
        (handleClosestQuestion ledger matchId i q cv).get? k = some a' →
        (questionKeyMatch matchId i q a = false → a' = a) ∧
        (questionKeyMatch matchId i q a = true →
          ((a'.isCorrect = true) ↔
            achievesMin cv (ledger.filter (questionKeyMatch matchId i q)) a) ∧
          (a'.isCorrect = true → a'.bonusAwarded = false ∧ a'.choice = a.choice ∧
            a'.playerId = a.playerId ∧ a'.answerMs = a.answerMs))) := by
  refine ⟨fun _ _ _ _ _ => rfl, ?_, ?_, ?_⟩
  · intro players cache ledger matchId qid question i q hp hne
    unfold generateRevealPayload
    rw [hp]
    dsimp only [Option.getD_some]
    unfold getQuestionAnswers
    rw [if_pos (List.length_pos.mpr hne)]
    rw [List.map_map]
    rfl
  · intro players ledger matchId i q e he hc hb
    unfold getQuestionAnswers at he
    simp only [List.filter_nil, List.length_nil, gt_iff_lt, lt_self_iff_false,
      if_false] at he
    rw [List.mem_map] at he
    obtain ⟨a, ha, rfl⟩ := he
    dsimp only at hc hb ⊢
    simp [hb, hc]
  · intro ledger matchId i q cv hnd hProv k a a' hka hka'
    have hamem : a ∈ ledger := List.get?_mem hka
    unfold handleClosestQuestion at hka'
    dsimp only at hka'
    rw [List.get?_map, hka, Option.map_some', Option.some.injEq] at hka'
    have hfa := hka'.symm
    set rows := ledger.filter (questionKeyMatch matchId i q) with hrows
    have hndrows : (rows.map AnswerRow.id).Nodup :=
      hnd.sublist ((List.filter_sublist _).map _)
    have hsub : ∀ b ∈ rows, b ∈ ledger := fun b hb => List.mem_of_mem_filter hb
    have hwin_mem :
        (rows.foldl (closestStep cv) ⟨none, []⟩).closestAnswerIds.contains a.id = true →
          a ∈ rows := by
      intro hc
      have hmem : a.id ∈ (rows.foldl (closestStep cv) ⟨none, []⟩).closestAnswerIds := by
        simpa using hc
      cases hmin : (rows.foldl (closestStep cv) ⟨none, []⟩).minDistance with
      | none =>
        obtain ⟨_, hids⟩ := (closestScan_spec cv rows).1 hmin
        rw [hids] at hmem
        simp at hmem
      | some m =>
        obtain ⟨_, _, hids⟩ := (closestScan_spec cv rows).2 m hmin
        rw [hids, List.mem_map] at hmem
        obtain ⟨p, hpf, hfst⟩ := hmem
        rw [List.mem_filter] at hpf
        obtain ⟨hpmem, _⟩ := hpf
        rw [mem_parsedDistances] at hpmem
        obtain ⟨b, hb, w, _, rfl⟩ := hpmem
        have hba : b = a := List.inj_on_of_nodup_map hnd (hsub b hb) hamem hfst
        exact hba ▸ hb
    constructor
    · intro hkf
      by_cases hc :
          (rows.foldl (closestStep cv) ⟨none, []⟩).closestAnswerIds.contains a.id = true
      · exfalso
        have hmm := hwin_mem hc
        rw [hrows, List.mem_filter] at hmm
        rw [hmm.2] at hkf
        exact absurd hkf (by decide)
      · rw [hfa, if_neg hc]
    · intro hkt
      have harows : a ∈ rows := by
        rw [hrows, List.mem_filter]
        exact ⟨hamem, hkt⟩
      by_cases hc :
          (rows.foldl (closestStep cv) ⟨none, []⟩).closestAnswerIds.contains a.id = true
      · have hwin := (closest_winner_iff cv rows hndrows a harows).mp hc
        have ha' : a' = { a with isCorrect := true, bonusAwarded := false } := by
          rw [hfa, if_pos hc]
        rw [ha']
        exact ⟨⟨fun _ => hwin, fun _ => rfl⟩, fun _ => ⟨rfl, rfl, rfl, rfl⟩⟩
      · have ha' : a' = a := by
          rw [hfa, if_neg hc]
        rw [ha']
        constructor
        · constructor
          · intro hcorr
            rw [hProv a hamem hkt] at hcorr
            exact absurd hcorr (by decide)
          · intro hmin
            exact absurd ((closest_winner_iff cv rows hndrows a harows).mpr hmin) hc
        · intro hcorr
          rw [hProv a hamem hkt] at hcorr
          exact absurd hcorr (by decide)

/-- The closest question for the C4 scenarios (correct value 54). -/
def closestQC4 : Question := .closest "How many?" 54 none none

/-- The player submitting in the C4 counterexample. -/
def playerC4 : MatchPlayerRow :=
  { id := "p1", matchId := "m", nickname := "Ann", avatar := none, leftAt := none }

/-- The ledger row persisted by the C4 counterexample submission. -/
def rowC4 : AnswerRow :=
  { id := 0, matchId := "m", playerId := "p1", inningIdx := 0, questionIdx := 0,
    choice := "54", isCorrect := false, answerMs := 1000, bonusAwarded := false }

/-- The cache entry written by the C4 counterexample submission. -/
def entryC4 : CacheEntry :=
  { matchId := "m", inningIdx := 0, questionIdx := 0, playerId := "p1",
    choice := "54", isCorrect := false, runsAwarded := 0, bonusAwarded := false,
    answerMs := 1000 }

/-- C4 counterexample: a player submits the exact closest value 54 (stored
provisionally incorrect with 0 runs, and mirrored into the Redis cache);
at reveal the ledger row is amended to correct, but the reveal payload —
built from the non-empty cache — still reports the player as incorrect with
0 runs, not the amended result. -/
theorem closest_reveal_payload_counterexample :
    submitAnswer [] [] ⟨"m", "p1", "m-0-0", "54", 1000⟩ closestQC4 ⟨20, false, false⟩ =
      .ok ({ isCorrect := false, correctAnswer := some (.num 54), runsAwarded := 0,
             bonusAwarded := false, answerMs := 1000 }, [rowC4], [entryC4]) ∧
    (generateRevealPayload [playerC4] [entryC4] [rowC4] "m" "m-0-0" closestQC4).2 =
      [{ rowC4 with isCorrect := true, bonusAwarded := false }] ∧
    (generateRevealPayload [playerC4] [entryC4] [rowC4] "m" "m-0-0" closestQC4).1.playerResults =
      [{ playerId := "p1", nickname := "Ann", isCorrect := false, runsAwarded := 0 }] :=
  ⟨rfl, rfl, rfl⟩

/-- The three submissions of the spec's closest-question example
(correct value 54): choices 54, 50, 54. -/
def rowC4a : AnswerRow :=
  { id := 0, matchId := "m", playerId := "p1", inningIdx := 0, questionIdx := 0,
    choice := "54", isCorrect := false, answerMs := 1000, bonusAwarded := false }

/-- Second row of the C4 example (choice 50). -/
def rowC4b : AnswerRow :=
  { id := 1, matchId := "m", playerId := "p2", inningIdx := 0, questionIdx := 0,
    choice := "50", isCorrect := false, answerMs := 1100, bonusAwarded := false }

/-- Third row of the C4 example (choice 54 — a tie with the first). -/
def rowC4c : AnswerRow :=
  { id := 2, matchId := "m", playerId := "p3", inningIdx := 0, questionIdx := 0,
    choice := "54", isCorrect := false, answerMs := 1200, bonusAwarded := false }

/-- The example ledger of the C4 witness. -/
def ledgerC4 : List AnswerRow := [rowC4a, rowC4b, rowC4c]

/-- The first row as the amendment leaves it. -/
def rowC4aAmended : AnswerRow :=
  { id := 0, matchId := "m", playerId := "p1", inningIdx := 0, questionIdx := 0,
    choice := "54", isCorrect := true, answerMs := 1000, bonusAwarded := false }

/-- Witness for the amended C4 on the spec's tie example: among choices
54, 50, 54 with correct value 54, the first row is amended to correct with
no bonus, and its amended correctness is equivalent to achieving the minimum
distance. -/
theorem closest_reveal_amendment_witness :
    (questionKeyMatch "m" 0 0 rowC4a = false → rowC4aAmended = rowC4a) ∧
    (questionKeyMatch "m" 0 0 rowC4a = true →
      ((rowC4aAmended.isCorrect = true) ↔
        achievesMin 54 (ledgerC4.filter (questionKeyMatch "m" 0 0)) rowC4a) ∧
      (rowC4aAmended.isCorrect = true → rowC4aAmended.bonusAwarded = false ∧
        rowC4aAmended.choice = rowC4a.choice ∧
        rowC4aAmended.playerId = rowC4a.playerId ∧
        rowC4aAmended.answerMs = rowC4a.answerMs)) := by
  have h54 : parseFloatQ "54" = some 54 := by
    have h1 : parseFloatQ "54" =
        some (1 * (((54 : Nat) : Rat) + ((0 : Nat) : Rat) / (10 : Rat) ^ (0 : Nat))) := rfl
    rw [h1]
    norm_num
  have h50 : parseFloatQ "50" = some 50 := by
    have h1 : parseFloatQ "50" =
        some (1 * (((50 : Nat) : Rat) + ((0 : Nat) : Rat) / (10 : Rat) ^ (0 : Nat))) := rfl
    rw [h1]
    norm_num
  have habs0 : |(54 : Rat) - 54| = 0 := by
    rw [sub_self, abs_zero]
  have habs4 : |(54 : Rat) - 50| = 4 := by
    rw [show (54 : Rat) - 50 = 4 from by norm_num,
      abs_of_nonneg (by norm_num : (0 : Rat) ≤ 4)]
  have hscan : ledgerC4.foldl (closestStep 54) ⟨none, []⟩ = ⟨some 0, [0, 2]⟩ := by
    show closestStep 54 (closestStep 54 (closestStep 54 ⟨none, []⟩ rowC4a) rowC4b)
      rowC4c = _
    rw [closestStep_first 54 ⟨none, []⟩ rowC4a 54 h54 rfl, habs0]
    rw [closestStep_far 54 _ rowC4b 50 0 h50 rfl (by rw [habs4]; norm_num)]
    rw [closestStep_tie 54 _ rowC4c 54 0 h54 rfl habs0]
    rfl
  have heval : (handleClosestQuestion ledgerC4 "m" 0 0 54).get? 0 =
      some rowC4aAmended := by
    unfold handleClosestQuestion
    dsimp only
    rw [show ledgerC4.filter (questionKeyMatch "m" 0 0) = ledgerC4 from rfl]
    simp only [hscan]
    rfl
  exact closest_reveal_amendment.2.2.2 ledgerC4 "m" 0 0 54 (by decide) (by decide)
    0 rowC4a rowC4aAmended rfl heval

end Jaysgame
